/-
  Verification of the Canvas-to-Notion synchronization core (Turing repository).

  Shallow embedding of the Python source under `src/app` into Lean 4:
  pure functions are translated directly; stateful coordinators are modelled
  by explicit state passing; Python exceptions become `Except`/`Option`.
  Python floats that carry exact integral ids and point values are modelled
  as rationals (`ℚ`); all ids in play are far below 2^53, where `float`
  arithmetic in the source is exact.
-/
import Mathlib

deriving instance DecidableEq for Except

namespace Turing

/-! ## Character and string helpers

Helpers mirroring the Python string operations used by `app/utils/date_utils.py`
(`str.replace("Z", "+00:00")`, `"T" in s`, `s.endswith("Z")`, `strftime`
zero-padding).  They operate on `List Char` so that everything reduces by
`decide`/`rfl`. -/

/-- Numeric value of a decimal digit character. -/
def digitVal (c : Char) : Nat := c.toNat - 48

/-- Two-digit decimal read, as done by `strptime`/`fromisoformat` field parsing. -/
def d2 (a b : Char) : Nat := digitVal a * 10 + digitVal b

/-- Four-digit decimal read (years). -/
def d4 (a b c d : Char) : Nat := ((digitVal a * 10 + digitVal b) * 10 + digitVal c) * 10 + digitVal d

/-- `s.replace("Z", "+00:00")` on the character list: every `'Z'` becomes `+00:00`. -/
def replaceZ : List Char → List Char
  | [] => []
  | 'Z' :: rest => '+' :: '0' :: '0' :: ':' :: '0' :: '0' :: replaceZ rest
  | c :: rest => c :: replaceZ rest

/-- Python `s.endswith("Z")`. -/
def endsWithZ (cs : List Char) : Bool := cs.getLast? = some 'Z'

/-- `%02d` zero padding used by `strftime` for months, days, hours, minutes, seconds. -/
def pad2 (n : Nat) : String := if n < 10 then "0" ++ toString n else toString n

/-- `%Y` four-digit zero padding used by `strftime` for years. -/
def pad4 (n : Nat) : String :=
  if n < 10 then "000" ++ toString n
  else if n < 100 then "00" ++ toString n
  else if n < 1000 then "0" ++ toString n
  else toString n

/-- Is `needle` a prefix of `hay`?  (Bool version, for Python's `in`.) -/
def isPrefixB : List Char → List Char → Bool
  | [], _ => true
  | _ :: _, [] => false
  | a :: as, b :: bs => a = b && isPrefixB as bs

/-- Python substring containment `needle in hay`. -/
def isInfixB (needle : List Char) : List Char → Bool
  | [] => needle.isEmpty
  | c :: rest => isPrefixB needle (c :: rest) || isInfixB needle rest

/-- Python `needle in hay` on strings (`str.__contains__`). -/
def strContains (hay needle : String) : Bool := isInfixB needle.data hay.data

/-! ## Calendar model

Gregorian calendar facts used by Python's `datetime` validation and
`timedelta` arithmetic. -/

/-- Gregorian leap year test. -/
def isLeap (y : Nat) : Bool := y % 4 = 0 && (y % 100 ≠ 0 || y % 400 = 0)

/-- Number of days in a month, as validated by `datetime`. -/
def daysInMonth (y m : Nat) : Nat :=
  if m = 2 then (if isLeap y then 29 else 28)
  else if m = 4 ∨ m = 6 ∨ m = 9 ∨ m = 11 then 30
  else 31

/-- A parsed Python `datetime` value.  `offMinutes = none` models a naive
datetime; `some k` models a fixed-offset timezone of `k` minutes. -/
structure PyDateTime where
  year : Nat
  month : Nat
  day : Nat
  hour : Nat
  minute : Nat
  second : Nat
  offMinutes : Option Int
  deriving DecidableEq, Repr

/-- Parse `YYYY-MM-DD` with `datetime`'s range validation
(model of `strptime(s, "%Y-%m-%d")` and of the date part of `fromisoformat`). -/
def parseYMDChars : List Char → Option (Nat × Nat × Nat)
  | [y1, y2, y3, y4, '-', m1, m2, '-', dd1, dd2] =>
    if (y1.isDigit && y2.isDigit && y3.isDigit && y4.isDigit &&
        m1.isDigit && m2.isDigit && dd1.isDigit && dd2.isDigit) then
      let y := d4 y1 y2 y3 y4
      let m := d2 m1 m2
      let d := d2 dd1 dd2
      if 1 ≤ m ∧ m ≤ 12 ∧ 1 ≤ d ∧ d ≤ daysInMonth y m then some (y, m, d) else none
    else none
  | _ => none

/-- Parse `HH:MM:SS` with `datetime`'s range validation. -/
def parseHMSChars : List Char → Option (Nat × Nat × Nat)
  | [h1, h2, ':', m1, m2, ':', s1, s2] =>
    if (h1.isDigit && h2.isDigit && m1.isDigit && m2.isDigit && s1.isDigit && s2.isDigit) then
      let h := d2 h1 h2
      let m := d2 m1 m2
      let s := d2 s1 s2
      if h ≤ 23 ∧ m ≤ 59 ∧ s ≤ 59 then some (h, m, s) else none
    else none
  | _ => none

/-- Parse a `±HH:MM` UTC offset suffix. -/
def parseOffsetChars : List Char → Option Int
  | ['+', h1, h2, ':', m1, m2] =>
    if (h1.isDigit && h2.isDigit && m1.isDigit && m2.isDigit) then
      let h := d2 h1 h2
      let m := d2 m1 m2
      if h ≤ 23 ∧ m ≤ 59 then some (h * 60 + m : Nat) else none
    else none
  | ['-', h1, h2, ':', m1, m2] =>
    if (h1.isDigit && h2.isDigit && m1.isDigit && m2.isDigit) then
      let h := d2 h1 h2
      let m := d2 m1 m2
      if h ≤ 23 ∧ m ≤ 59 then some (-(h * 60 + m : Nat) : Int) else none
    else none
  | _ => none

/-- Model of `datetime.fromisoformat` for the canonical shapes the source
feeds it: `YYYY-MM-DD`, optionally followed by `THH:MM:SS` and an optional
`±HH:MM` offset. -/
def fromisoformatModel (s : String) : Option PyDateTime :=
  let cs := s.data
  match parseYMDChars (cs.take 10) with
  | none => none
  | some (y, m, d) =>
    match cs.drop 10 with
    | [] => some ⟨y, m, d, 0, 0, 0, none⟩
    | 'T' :: timeRest =>
      match parseHMSChars (timeRest.take 8) with
      | none => none
      | some (hh, mi, ss) =>
        match timeRest.drop 8 with
        | [] => some ⟨y, m, d, hh, mi, ss, none⟩
        | offCs =>
          match parseOffsetChars offCs with
          | some off => some ⟨y, m, d, hh, mi, ss, some off⟩
          | none => none
    | _ => none

/-! ## `app/utils/date_utils.py` -/

/-- Season bucket of `determine_semester_from_date`:
months 1–5 → Spring, 6–7 → Summer, 8–12 → Fall, year appended. -/
def seasonLabel (y m : Nat) : String :=
  if m = 1 ∨ m = 2 ∨ m = 3 ∨ m = 4 ∨ m = 5 then "Spring " ++ toString y
  else if m = 6 ∨ m = 7 then "Summer " ++ toString y
  else "Fall " ++ toString y

/-- `determine_semester_from_date` (`app/utils/date_utils.py`, lines 6–41):
empty input → `"Fall 2025"`; input containing `'T'` → `fromisoformat` after
replacing `Z` with `+00:00`; otherwise `strptime("%Y-%m-%d")`; any parse
failure is caught and yields `"Fall 2025"`. -/
def determineSemesterFromDate (s : String) : String :=
  if s = "" then "Fall 2025"
  else if s.data.contains 'T' then
    match fromisoformatModel ⟨replaceZ s.data⟩ with
    | some dt => seasonLabel dt.year dt.month
    | none => "Fall 2025"
  else
    match parseYMDChars s.data with
    | some (y, m, _) => seasonLabel y m
    | none => "Fall 2025"

/-- `YYYY-MM-DD` rendering (the `%Y-%m-%d` part of `strftime`). -/
def dateStr (y m d : Nat) : String := pad4 y ++ "-" ++ pad2 m ++ "-" ++ pad2 d

/-- `HH:MM:SS` rendering (the `%H:%M:%S` part of `strftime`). -/
def timeStr (h mi s : Nat) : String := pad2 h ++ ":" ++ pad2 mi ++ ":" ++ pad2 s

/-- Previous calendar day, as computed by `datetime - timedelta` rollover. -/
def prevDay (y m d : Nat) : Nat × Nat × Nat :=
  if 1 < d then (y, m, d - 1)
  else if 1 < m then (y, m - 1, daysInMonth y (m - 1))
  else (y - 1, 12, 31)

/-- `dt - timedelta(hours=5)` on the naive calendar fields (Python subtracts
on the fields and keeps the tzinfo; `strftime` then prints the fields). -/
def minus5hours (dt : PyDateTime) : PyDateTime :=
  if 5 ≤ dt.hour then { dt with hour := dt.hour - 5 }
  else
    let p := prevDay dt.year dt.month dt.day
    { dt with year := p.1, month := p.2.1, day := p.2.2, hour := dt.hour + 19 }

/-- `format_canvas_due_date_for_notion_est` (`app/utils/date_utils.py`,
lines 84–141): empty → `""`; a string containing `'T'` is parsed (replacing a
trailing `Z` by `+00:00` first when present), shifted back 5 hours and printed
as `YYYY-MM-DDTHH:MM:SS-05:00`; a bare `YYYY-MM-DD` gets noon EST appended;
parse failures are caught and yield `""`. -/
def formatCanvasDueDateForNotionEst (s : String) : String :=
  if s = "" then ""
  else if s.data.contains 'T' then
    match fromisoformatModel (if endsWithZ s.data then ⟨replaceZ s.data⟩ else s) with
    | some dt =>
      let e := minus5hours dt
      dateStr e.year e.month e.day ++ "T" ++ timeStr e.hour e.minute e.second ++ "-05:00"
    | none => ""
  else
    match parseYMDChars s.data with
    | some (y, m, d) => dateStr y m d ++ "T12:00:00-05:00"
    | none => ""

/-- `AssignmentMapper._format_due_date` ((`app/services/canvas/assignment_mapper.py`,
lines 83–102) composed with the `due_at is not None` guard of
`map_canvas_assignment_to_notion`): `None` or `""` → `""`,
otherwise delegate to `format_canvas_due_date_for_notion_est`. -/
def mapperFormatDueDate (dueAt : Option String) : String :=
  match dueAt with
  | none => ""
  | some s => if s = "" then "" else formatCanvasDueDateForNotionEst s

/-! ## Python values and `float()` conversion

Model of the dynamically-typed values flowing out of Canvas JSON, as far as
`extract_points_possible` needs them.  Python `float` values carrying exact
point totals and ids are modelled as rationals. -/

/-- A Python value in a Canvas JSON field (`None`, int, float, or str). -/
inductive PyVal where
  | none
  | int (n : Int)
  | float (q : ℚ)
  | str (s : String)
  deriving DecidableEq, Repr

/-- Split a character list at the first `'.'`. -/
def splitDot : List Char → List Char × Option (List Char)
  | [] => ([], Option.none)
  | '.' :: rest => ([], some rest)
  | c :: rest => let p := splitDot rest; (c :: p.1, p.2)

/-- Value of a decimal digit string. -/
def digitsVal (cs : List Char) : Nat := cs.foldl (fun a c => a * 10 + digitVal c) 0

/-- Model of Python `float(s)` on a string: optional sign, decimal digits with
an optional single dot, at least one digit (the plain decimal forms in play;
failure models the raised `ValueError`). -/
def pyFloatOfString (s : String) : Option ℚ :=
  let cs := ((s.data.dropWhile (· = ' ')).reverse.dropWhile (· = ' ')).reverse
  let signed : Int × List Char :=
    match cs with
    | '-' :: r => (-1, r)
    | '+' :: r => (1, r)
    | r => (1, r)
  let p := splitDot signed.2
  match p.2 with
  | Option.none =>
    if p.1 ≠ [] ∧ p.1.all Char.isDigit then
      some (signed.1 * (digitsVal p.1 : ℚ))
    else Option.none
  | some frac =>
    if (p.1 ++ frac) ≠ [] ∧ p.1.all Char.isDigit ∧ frac.all Char.isDigit ∧ ¬ frac.contains '.' then
      some (signed.1 * ((digitsVal p.1 : ℚ) + (digitsVal frac : ℚ) / ((10 : ℚ) ^ frac.length)))
    else Option.none

/-- Model of Python `float(x)`: ints and floats convert, strings parse,
`float(None)` raises (`Option.none`). -/
def pyFloat : PyVal → Option ℚ
  | .none => Option.none
  | .int n => some (n : ℚ)
  | .float q => some q
  | .str s => pyFloatOfString s

/-- `AssignmentDataExtractor.extract_points_possible`
(`app/services/canvas/data_extractors.py`, lines 152–177): `None` →
`DEFAULT_POINTS = 0.0`; otherwise `float(x)` with `ValueError`/`TypeError`
caught and defaulted to `0.0`. -/
def extractPointsPossible (pts : PyVal) : ℚ :=
  if pts = PyVal.none then 0
  else (pyFloat pts).getD 0

/-- The `points_possible` path of the duplicated mapper
`AssignmentMapper.map_canvas_assignment_to_notion` in
`app/services/canvas/course_mapper.py` (lines 172–185): missing/None → `0`,
then a bare `float(points_possible)` with no `try` — `Option.none` models the
uncaught `ValueError`. -/
def courseMapperPointsPossible (pts : PyVal) : Option ℚ :=
  pyFloat (if pts = PyVal.none then PyVal.int 0 else pts)

/-! ## Pagination (`app/services/canvas/client.py`, `enhanced_client.py`)

The upstream server is modelled by the full list `xs` of records it holds for
a query; a request with `per_page = n, page = p` returns the `p`-th chunk of
`n` records. -/

/-- One page of the upstream list: records `(page-1)*perPage` to
`page*perPage - 1`. -/
def getPage (xs : List α) (perPage page : Nat) : List α :=
  (xs.drop ((page - 1) * perPage)).take perPage

/-- `CanvasAPIClient.get_enrolled_courses` (`app/services/canvas/client.py`,
lines 116–143): a single `_make_request("courses", per_page=100)` with no
pagination loop — the caller receives only the first page. -/
def getEnrolledCourses (xs : List α) : List α := getPage xs 100 1

/-- The `while True` pagination loop of
`EnhancedCanvasClient.get_enhanced_course_assignments`
(`app/services/canvas/enhanced_client.py`, lines 104–131), with explicit
fuel standing for the finitely many pages the server can return: an empty
page yields nothing more, a short page is final, a full page is followed by
page + 1. -/
def fetchPagesFrom (xs : List α) (perPage : Nat) : Nat → Nat → List α
  | 0, _ => []
  | fuel + 1, page =>
    if (getPage xs perPage page).isEmpty then []
    else if (getPage xs perPage page).length < perPage then getPage xs perPage page
    else getPage xs perPage page ++ fetchPagesFrom xs perPage fuel (page + 1)

/-- `EnhancedCanvasClient.get_enhanced_course_assignments`: paginate with
`per_page = 100` starting at page 1.  `xs.length + 1` rounds of fuel always
suffice (proved below). -/
def getEnhancedCourseAssignments (xs : List α) : List α :=
  fetchPagesFrom xs 100 (xs.length + 1) 1

/-! ## Embedded source id (`weighting` hack)

Encode: `AssignmentMapper.map_canvas_assignment_to_notion`
(`app/services/canvas/assignment_mapper.py`, line 72) and
`AssignmentFormatter._calculate_weighting`
(`app/services/notion/assignment_formatter.py`, lines 450–461) store
`float(canvas_assignment.id)` as the `weighting` number property.
Decode: `NotionWorkspaceManager.get_existing_assignments`
(`app/utils/notion_helper.py`, lines 501–512). -/

/-- Encoding of the Canvas assignment id into the `weighting` number value. -/
def encodeWeighting (canvasId : Nat) : ℚ := canvasId

/-- The value-side decode condition of `get_existing_assignments`:
`weight_value and weight_value > 1000` then `str(int(weight_value))`, which
the sync converts back with `int(...)` (`assignment_sync.py`, line 84).
`Int.floor` models `int()` truncation on the positive values accepted. -/
def decodeWeighting (v : ℚ) : Option Nat :=
  if v ≠ 0 ∧ 1000 < v then some ⌊v⌋.toNat else Option.none

/-- A Notion page property as far as the duplicate-index builder reads it:
a number property (possibly with `None` value) or anything else. -/
inductive NotionProp where
  | number (v : Option ℚ)
  | other
  deriving DecidableEq, Repr

/-- Python `str.lower()`. -/
def pyLower (s : String) : String := ⟨s.data.map Char.toLower⟩

/-- The property scan of `get_existing_assignments` (lines 501–512): first
number property whose lowercased name is `weighting`/`weight` and whose value
is truthy and `> 1000` yields the decoded Canvas id; otherwise keep scanning. -/
def extractAssignmentIdFromPage : List (String × NotionProp) → Option Nat
  | [] => Option.none
  | (name, NotionProp.number (some v)) :: rest =>
    if (pyLower name = "weighting" ∨ pyLower name = "weight") ∧ v ≠ 0 ∧ 1000 < v
    then some ⌊v⌋.toNat
    else extractAssignmentIdFromPage rest
  | _ :: rest => extractAssignmentIdFromPage rest

/-! ## Current-semester filter (`app/services/canvas/sync_service.py`) -/

/-- `CanvasSyncService._is_current_semester_course` (lines 128–143):
falsy `start_at` → current; otherwise the course is current iff
`str(CURRENT_YEAR)` occurs in the derived term label.  `CURRENT_YEAR` is the
module-level `datetime.now().year`, passed here as a parameter. -/
def isCurrentSemesterCourse (currentYear : Nat) (startAt : Option String) : Bool :=
  match startAt with
  | Option.none => true
  | some s =>
    if s = "" then true
    else strContains (determineSemesterFromDate s) (toString currentYear)

/-! ## Instructor resolution
(`app/services/canvas/professor_detector.py`, `sync_service.py`) -/

/-- A Canvas user record as the detector reads it (`user.get("id")`,
`user.get("name", "")`). -/
structure CanvasUser where
  id : Option Nat
  name : String
  deriving DecidableEq, Repr

/-- An enrollment record: its `type` string and optional embedded user. -/
structure Enrollment where
  etype : String
  user : Option CanvasUser
  deriving DecidableEq, Repr

/-- A course section as the detector reads it. -/
structure CourseSection where
  id : Option Nat
  name : String
  deriving DecidableEq, Repr

/-- A resolved instructor (`professor_detector.py` result dictionaries). -/
structure Instructor where
  id : Option Nat
  displayName : String
  role : String
  deriving DecidableEq, Repr

/-- `str.replace("Enrollment", "")` on the character list: left-to-right,
non-overlapping removal of the literal `Enrollment`. -/
def stripEnrollmentChars : List Char → List Char
  | 'E' :: 'n' :: 'r' :: 'o' :: 'l' :: 'l' :: 'm' :: 'e' :: 'n' :: 't' :: rest =>
    stripEnrollmentChars rest
  | c :: rest => c :: stripEnrollmentChars rest
  | [] => []

/-- `enrollment_type.replace("Enrollment", "")`. -/
def pyReplaceEnrollment (s : String) : String := ⟨stripEnrollmentChars s.data⟩

/-- `ProfessorDetector._create_professor_from_enrollment` (lines 161–186):
missing/empty user → `None`; otherwise a professor tagged role `"Teacher"`. -/
def createProfessorFromEnrollment (e : Enrollment) : Option Instructor :=
  match e.user with
  | Option.none => Option.none
  | some u => some ⟨u.id, u.name, "Teacher"⟩

/-- `ProfessorDetector._create_instructor_from_enrollment` (lines 255–277):
missing user → `None`; otherwise role is the enrollment type with
`"Enrollment"` stripped (empty type → empty role). -/
def createInstructorFromEnrollment (e : Enrollment) : Option Instructor :=
  match e.user with
  | Option.none => Option.none
  | some u =>
    some ⟨u.id, u.name, if e.etype = "" then "" else pyReplaceEnrollment e.etype⟩

/-- `ProfessorDetector._get_professors_from_section` (lines 133–159):
keep `TeacherEnrollment` records, build professor objects, drop user-less ones. -/
def getProfessorsFromSection (sectionEnrollments : List Enrollment) : List Instructor :=
  (sectionEnrollments.filter (fun e => e.etype = "TeacherEnrollment")).filterMap
    createProfessorFromEnrollment

/-- `ProfessorDetector._get_instructors_from_enrollments` (lines 228–253):
keep `TeacherEnrollment`/`TaEnrollment` records, build instructor objects,
drop user-less ones. -/
def getInstructorsFromEnrollments (enrollments : List Enrollment) : List Instructor :=
  (enrollments.filter
      (fun e => e.etype = "TeacherEnrollment" ∨ e.etype = "TaEnrollment")).filterMap
    createInstructorFromEnrollment

/-- Truthiness of a Python id (`if prof_id and ...`): present and nonzero. -/
def truthyId : Option Nat → Bool
  | Option.none => false
  | some n => n ≠ 0

/-- `ProfessorDetector._extract_professors_from_sections` (lines 95–131):
walk the sections (skipping falsy section ids), collect section professors,
deduplicate by truthy user id across sections.  `secEnr` is the environment's
answer to `get_section_enrollments`. -/
def extractProfessorsFromSections (sections : List CourseSection)
    (secEnr : Nat → List Enrollment) : List Instructor :=
  (sections.foldl
    (fun (acc : List Instructor × List Nat) sec =>
      match sec.id with
      | Option.none => acc
      | some sid =>
        if sid = 0 then acc
        else
          (getProfessorsFromSection (secEnr sid)).foldl
            (fun acc2 p =>
              match p.id with
              | some pid =>
                if pid ≠ 0 ∧ pid ∉ acc2.2 then (acc2.1 ++ [p], pid :: acc2.2) else acc2
              | Option.none => acc2)
            acc)
    ([], [])).1

/-- `ProfessorDetector.get_professors_from_sections` (lines 50–93):
no sections → empty result; otherwise extract from the sections. -/
def getProfessorsFromSectionsTier (sections : List CourseSection)
    (secEnr : Nat → List Enrollment) : List Instructor :=
  if sections.isEmpty then [] else extractProfessorsFromSections sections secEnr

/-- `ProfessorDetector.get_professors_fallback` (lines 188–226): falsy course
details → empty result; otherwise course-level instructor extraction. -/
def getProfessorsFallback (courseDetailsPresent : Bool)
    (courseEnrollments : List Enrollment) : List Instructor :=
  if courseDetailsPresent then getInstructorsFromEnrollments courseEnrollments else []

/-- The tiered resolution performed by
`CanvasSyncService.enhance_course_with_professors` (lines 145–208): the
sections tier first; if it yields nothing, the course-level fallback.  The
result is the instructor list attached to the course (possibly empty — no
error in either case). -/
def resolveInstructors (sections : List CourseSection) (secEnr : Nat → List Enrollment)
    (courseDetailsPresent : Bool) (courseEnrollments : List Enrollment) : List Instructor :=
  let viaSections := getProfessorsFromSectionsTier sections secEnr
  if viaSections.isEmpty then getProfessorsFallback courseDetailsPresent courseEnrollments
  else viaSections

/-! ## Python decimal `str`/`int` round trip

The coordinators move Canvas ids through `str(...)` / `int(...)` and through
the `"Canvas ID: {id}"` contact string; these model that plumbing. -/

/-- Decimal digit character for `n < 10`. -/
def digitChar (n : Nat) : Char := Char.ofNat (48 + n)

/-- Fuel-driven decimal rendering (`fuel ≥ n` suffices). -/
def natToCharsAux : Nat → Nat → List Char
  | 0, n => [digitChar n]
  | fuel + 1, n => if n < 10 then [digitChar n] else natToCharsAux fuel (n / 10) ++ [digitChar (n % 10)]

/-- Python `str(n)` for a nonnegative int: decimal rendering. -/
def pyStr (n : Nat) : String := ⟨natToCharsAux n n⟩

/-- Strip leading and trailing spaces (Python `str.strip()` for the spaces
in play). -/
def stripSpaces (cs : List Char) : List Char :=
  ((cs.dropWhile (· = ' ')).reverse.dropWhile (· = ' ')).reverse

/-- Model of Python `int(s)`: strip, optional sign, decimal digits
(`Option.none` models the raised `ValueError`). -/
def pyIntOfString (s : String) : Option Int :=
  match stripSpaces s.data with
  | [] => Option.none
  | c :: r =>
    if c = '-' then
      (if r ≠ [] ∧ r.all Char.isDigit then some (-(digitsVal r : Int)) else Option.none)
    else if c = '+' then
      (if r ≠ [] ∧ r.all Char.isDigit then some (digitsVal r : Int) else Option.none)
    else if (c :: r).all Char.isDigit then some (digitsVal (c :: r) : Int)
    else Option.none

/-- Return what follows the first occurrence of `pat`
(Python `s.split(pat)[1]` joined with the later parts — a single occurrence
in every string in play). -/
def afterPat (pat : List Char) : List Char → Option (List Char)
  | [] => Option.none
  | c :: rest =>
    if isPrefixB pat (c :: rest) then some ((c :: rest).drop pat.length)
    else afterPat pat rest

/-- The `contact` value written by `CourseMapper.map_canvas_course_to_notion`
(`app/services/canvas/course_mapper.py`, line 46): `f"Canvas ID: {id}"`. -/
def encodeContact (canvasId : Nat) : String := "Canvas ID: " ++ pyStr canvasId

/-- The contact decode of `NotionWorkspaceManager.get_synced_courses`
(`app/utils/notion_helper.py`, lines 428–452): a truthy phone value
containing `"Canvas ID:"` is split after the marker, stripped, and parsed
with `int(...)`; parse failures skip the page. -/
def decodeContact (phone : String) : Option Int :=
  if phone ≠ "" ∧ strContains phone "Canvas ID:" then
    match afterPat ("Canvas ID:".data) phone.data with
    | some rest => pyIntOfString ⟨stripSpaces rest⟩
    | Option.none => Option.none
  else Option.none

/-! ## Course sync coordinator
(`app/services/sync/course_sync.py`) -/

/-- An upstream Canvas course as the coordinator reads it. -/
structure CanvasCourse where
  id : Nat
  name : String
  deriving DecidableEq, Repr

/-- Outcome of `notion_manager.add_course_entry` for one course:
a truthy page id, a falsy result, or a raised exception. -/
inductive CreateOutcome where
  | ok (notionId : String)
  | noId
  | raised
  deriving DecidableEq, Repr

/-- Result shape of `_sync_current_semester_courses`. -/
structure CourseSyncResult where
  success : Bool
  found : Nat
  created : Nat
  failed : Nat
  skipped : Nat
  createdIds : List Nat
  failedIds : List Nat
  deriving DecidableEq, Repr

/-- Accumulator of the per-course loop. -/
structure CourseAcc where
  created : Nat
  failed : Nat
  skipped : Nat
  createdIds : List Nat
  failedIds : List Nat
  deriving DecidableEq, Repr

/-- One iteration of the per-course loop of `_sync_current_semester_courses`
(lines 137–185): skip when `str(id)` is in the duplicate index; otherwise map
and create, counting a truthy page id as created and a falsy result or a
raised exception as failed (the per-course `except` converts it to a
`failed_courses` entry). -/
def courseStep (existing : List String) (create : CanvasCourse → CreateOutcome)
    (acc : CourseAcc) (c : CanvasCourse) : CourseAcc :=
  if pyStr c.id ∈ existing then
    { acc with skipped := acc.skipped + 1 }
  else
    match create c with
    | .ok _ => { acc with created := acc.created + 1, createdIds := acc.createdIds ++ [c.id] }
    | .noId => { acc with failed := acc.failed + 1, failedIds := acc.failedIds ++ [c.id] }
    | .raised => { acc with failed := acc.failed + 1, failedIds := acc.failedIds ++ [c.id] }

/-- The duplicate index of `_sync_current_semester_courses` (lines 124–126):
`{str(course.canvas_course_id) for course in get_synced_courses()}`, where
`get_synced_courses` decodes the contact string of each page and `int(...)`s
it. -/
def courseDupIndex (pages : List String) : List String :=
  (pages.filterMap decodeContact).map (fun n => pyStr n.toNat)

/-- `_sync_current_semester_courses` (`app/services/sync/course_sync.py`,
lines 102–215): a failed upstream fetch is caught by the outer `except` and
reported as a zero-count failure result; an empty upstream list short-circuits
with success; otherwise the duplicate index is the decoded contact ids of the
existing pages and the loop runs over every course. -/
def syncCurrentSemesterCourses (fetch : Except Unit (List CanvasCourse))
    (existingPages : List String) (create : CanvasCourse → CreateOutcome) : CourseSyncResult :=
  match fetch with
  | .error _ => ⟨false, 0, 0, 0, 0, [], []⟩
  | .ok [] => ⟨true, 0, 0, 0, 0, [], []⟩
  | .ok courses =>
    ⟨(courses.foldl (courseStep (courseDupIndex existingPages) create) ⟨0, 0, 0, [], []⟩).failed = 0,
      courses.length,
      (courses.foldl (courseStep (courseDupIndex existingPages) create) ⟨0, 0, 0, [], []⟩).created,
      (courses.foldl (courseStep (courseDupIndex existingPages) create) ⟨0, 0, 0, [], []⟩).failed,
      (courses.foldl (courseStep (courseDupIndex existingPages) create) ⟨0, 0, 0, [], []⟩).skipped,
      (courses.foldl (courseStep (courseDupIndex existingPages) create) ⟨0, 0, 0, [], []⟩).createdIds,
      (courses.foldl (courseStep (courseDupIndex existingPages) create) ⟨0, 0, 0, [], []⟩).failedIds⟩

/-- Per-user integration settings (`app/models/user_settings.py` fields the
coordinators validate); empty string models a missing credential. -/
structure UserSettings where
  canvasBaseUrl : String
  canvasPat : String
  notionToken : String
  notionParentPageId : String
  deriving DecidableEq, Repr

/-- Exceptions the coordinators raise (`app/core/exceptions.py` kinds in play). -/
inductive SyncExn where
  | validationError (msg : String)
  | databaseError (msg : String)
  deriving DecidableEq, Repr

/-- Environment of one `sync_courses` call: the stored settings, the upstream
fetch, the existing Notion course pages (their contact values), the creation
outcomes, and whether the post-sync Firebase writes succeed. -/
structure CourseSyncEnv where
  settings : Option UserSettings
  fetch : Except Unit (List CanvasCourse)
  existingPages : List String
  create : CanvasCourse → CreateOutcome
  firebaseOk : Bool

/-- `CourseSyncService.sync_courses` (`app/services/sync/course_sync.py`,
lines 15–100): missing user → `DatabaseError`; missing Canvas or Notion
credentials → `ValidationError`, raised before any fetch; then the inner sync
(which catches its own errors); on success the Firebase bookkeeping runs and
a failure there propagates out of the outer `except` via `raise e`. -/
def syncCoursesWithSettings (env : CourseSyncEnv) : Option UserSettings → Except SyncExn CourseSyncResult
  | Option.none => .error (.databaseError "User not found. Please run /setup/init first.")
  | some st =>
    if st.canvasBaseUrl = "" ∨ st.canvasPat = "" then
      .error (.validationError "Canvas credentials not configured. Please set Canvas base URL and PAT.")
    else if st.notionToken = "" ∨ st.notionParentPageId = "" then
      .error (.validationError "Notion credentials not configured. Please set Notion token and parent page ID.")
    else
      if (syncCurrentSemesterCourses env.fetch env.existingPages env.create).success ∧ ¬ env.firebaseOk then
        .error (.databaseError "sync log write failed")
      else .ok (syncCurrentSemesterCourses env.fetch env.existingPages env.create)

def syncCourses (env : CourseSyncEnv) : Except SyncExn CourseSyncResult :=
  syncCoursesWithSettings env env.settings

/-- State transition of one successful course-sync run on the Notion side:
every created course page carries the mapper's contact string in the
workspace's phone property (the default workspace schema has one), so the
next run's `get_synced_courses` sees it. -/
def coursePagesAfterRun (pages : List String) (r : CourseSyncResult) : List String :=
  pages ++ r.createdIds.map encodeContact

/-! ## Assignment sync coordinator
(`app/services/sync/assignment_sync.py`) -/

/-- A synced course as `_get_synced_courses` returns it. -/
structure SyncedCourse where
  canvasCourseId : Nat
  title : String
  notionPageId : String
  deriving DecidableEq, Repr

/-- The count/list block of one `_sync_course_assignments` result dictionary. -/
structure AssignCounts where
  found : Nat
  created : Nat
  failed : Nat
  skipped : Nat
  createdIds : List Nat
  failedIds : List Nat
  deriving DecidableEq, Repr

/-- `AssignmentSyncService._sync_course_assignments`
(`app/services/sync/assignment_sync.py`, lines 173–314).  `fetch` is the
course's assignment-id fetch (`.error` models a raised exception: the
course-level `except` returns `found = 0, failed = 1` with one failed item
for the course itself, lines 298–314).  `existingIds` is the pre-fetched
duplicate index; `proc a = true` models `_process_single_assignment`
returning a success dictionary for assignment `a`, `false` any of its failure
shapes. -/
def newAssignmentsOf (assignments : List Nat) (existingIds : List Nat) : List Nat :=
  assignments.filter (fun a => !(decide (a ∈ existingIds)))

def syncCourseAssignments (courseId : Nat) (fetch : Except Unit (List Nat))
    (existingIds : List Nat) (proc : Nat → Bool) : AssignCounts :=
  match fetch with
  | .error _ => ⟨0, 0, 1, 0, [], [courseId]⟩
  | .ok assignments =>
    if assignments = [] then ⟨0, 0, 0, 0, [], []⟩
    else if newAssignmentsOf assignments existingIds = [] then
      ⟨assignments.length, 0, 0,
        assignments.length - (newAssignmentsOf assignments existingIds).length, [], []⟩
    else
      ⟨assignments.length,
        ((newAssignmentsOf assignments existingIds).filter proc).length,
        ((newAssignmentsOf assignments existingIds).filter (fun a => !(proc a))).length,
        assignments.length - (newAssignmentsOf assignments existingIds).length,
        (newAssignmentsOf assignments existingIds).filter proc,
        (newAssignmentsOf assignments existingIds).filter (fun a => !(proc a))⟩

/-- The aggregation loop of `sync_assignments` (lines 107–134) over the
per-course result dictionaries (in this model every gathered result is a
dictionary: the course-level `except Exception` inside
`_sync_course_assignments` already converted raised errors). -/
def sumAssignCounts (results : List AssignCounts) : AssignCounts :=
  results.foldl
    (fun t r =>
      ⟨t.found + r.found, t.created + r.created, t.failed + r.failed, t.skipped + r.skipped,
        t.createdIds ++ r.createdIds, t.failedIds ++ r.failedIds⟩)
    ⟨0, 0, 0, 0, [], []⟩

/-- `AssignmentSyncResponse` as the caller receives it. -/
structure AssignmentSyncResponse where
  success : Bool
  message : String
  coursesProcessed : Nat
  found : Nat
  created : Nat
  failed : Nat
  skipped : Nat
  createdIds : List Nat
  failedIds : List Nat
  deriving DecidableEq, Repr

/-- The success-path message of `sync_assignments` (lines 138–143). -/
def assignMessage (t : AssignCounts) : String :=
  let base := "Assignment sync completed. " ++ pyStr t.created
      ++ " assignments created with rich formatting."
  if 0 < t.failed then base ++ " " ++ pyStr t.failed ++ " assignments failed." else base

/-- Environment of one `sync_assignments` call: stored settings, the synced
courses (`_get_synced_courses`, which returns `[]` on its own errors), the
existing Notion assignment pages (their property dictionaries), the
per-course assignment fetch, and the per-assignment processing outcome. -/
structure AssignmentSyncEnv where
  settings : Option UserSettings
  syncedCourses : List SyncedCourse
  assignmentPages : List (List (String × NotionProp))
  fetchAssignments : Nat → Except Unit (List Nat)
  proc : Nat → Bool

/-- The duplicate index of `sync_assignments` (lines 82–84):
`{int(a.canvas_assignment_id) for a in get_existing_assignments()}`, the
per-page decode composed with `int(...)`. -/
def assignIndexOf (pages : List (List (String × NotionProp))) : List Nat :=
  pages.filterMap extractAssignmentIdFromPage

/-- The gathered per-course results of `sync_assignments` (lines 86–105). -/
def assignResultsOf (env : AssignmentSyncEnv) : List AssignCounts :=
  env.syncedCourses.map
    (fun c => syncCourseAssignments c.canvasCourseId (env.fetchAssignments c.canvasCourseId)
      (assignIndexOf env.assignmentPages) env.proc)

/-- The body of `AssignmentSyncService.sync_assignments` (lines 44–156)
before its top-level `except`: missing settings or credentials raise
(`.error`); no synced courses short-circuits with a failure response; else
the duplicate index is built once from the existing pages
(`get_existing_assignments` decode, then `int(...)` at line 84) and every
course is processed. -/
def syncAssignmentsBodyWith (env : AssignmentSyncEnv) :
    Option UserSettings → Except SyncExn AssignmentSyncResponse
  | Option.none => .error (.databaseError "User settings not found")
  | some st =>
    if st.canvasBaseUrl = "" ∨ st.canvasPat = "" then
      .error (.validationError "Canvas credentials not configured. Please set Canvas base URL and PAT.")
    else if st.notionToken = "" ∨ st.notionParentPageId = "" then
      .error (.validationError "Notion credentials not configured. Please set Notion token and parent page ID.")
    else if env.syncedCourses = [] then
      .ok ⟨false, "No synced courses found. Please sync courses first.", 0, 0, 0, 0, 0, [], []⟩
    else
      .ok ⟨(sumAssignCounts (assignResultsOf env)).failed = 0,
        assignMessage (sumAssignCounts (assignResultsOf env)), env.syncedCourses.length,
        (sumAssignCounts (assignResultsOf env)).found,
        (sumAssignCounts (assignResultsOf env)).created,
        (sumAssignCounts (assignResultsOf env)).failed,
        (sumAssignCounts (assignResultsOf env)).skipped,
        (sumAssignCounts (assignResultsOf env)).createdIds,
        (sumAssignCounts (assignResultsOf env)).failedIds⟩

/-- The body of `sync_assignments` applied to the stored settings. -/
def syncAssignmentsBody (env : AssignmentSyncEnv) : Except SyncExn AssignmentSyncResponse :=
  syncAssignmentsBodyWith env env.settings

/-- The top-level failure response of `sync_assignments` (lines 158–171):
any exception — the missing-credentials `ValidationError` included — is
caught and converted into a structured zero-count response. -/
def assignFailureResponse (e : SyncExn) : AssignmentSyncResponse :=
  match e with
  | .validationError m => ⟨false, "Assignment sync failed: " ++ m, 0, 0, 0, 0, 0, [], []⟩
  | .databaseError m => ⟨false, "Assignment sync failed: " ++ m, 0, 0, 0, 0, 0, [], []⟩

/-- `AssignmentSyncService.sync_assignments` as the caller sees it: the body
wrapped in the top-level `try`/`except Exception` — it never raises. -/
def syncAssignments (env : AssignmentSyncEnv) : AssignmentSyncResponse :=
  match syncAssignmentsBody env with
  | .ok r => r
  | .error e => assignFailureResponse e

/-- The property dictionary of an assignment page created by one run, as far
as the duplicate-index decode reads it: the `Weighting` number property
holding `float(canvas_id)` (written by `_build_properties_from_schema`
against the default workspace schema). -/
def mkWeightPage (a : Nat) : List (String × NotionProp) :=
  [("Weighting", NotionProp.number (some (encodeWeighting a)))]

/-- State transition of one assignment-sync run on the Notion side: every
created assignment page carries `float(canvas_id)` in the workspace's
`Weighting` number property, so the next run's `get_existing_assignments`
scans it. -/
def assignmentPagesAfterRun (pages : List (List (String × NotionProp)))
    (resp : AssignmentSyncResponse) : List (List (String × NotionProp)) :=
  pages ++ resp.createdIds.map mkWeightPage

/-- Did this fetch raise?  (The course-level `except` path of
`_sync_course_assignments`.) -/
def isFetchError : Except Unit (List Nat) → Bool
  | .error _ => true
  | .ok _ => false

/-! ## General lemmas -/

theorem length_filter_not_add (l : List α) (p : α → Bool) :
    (l.filter p).length + (l.filter (fun a => !(p a))).length = l.length := by
  induction l with
  | nil => simp
  | cons x xs ih =>
    by_cases h : p x <;> simp [List.filter_cons, h] <;> omega

theorem fetchPagesFrom_complete (xs : List α) (perPage : Nat) (hpp : 0 < perPage) :
    ∀ fuel page, 1 ≤ page → (xs.drop ((page - 1) * perPage)).length ≤ fuel * perPage →
    fetchPagesFrom xs perPage fuel page = xs.drop ((page - 1) * perPage) := by
  intro fuel
  induction fuel with
  | zero =>
    intro page _ hlen
    rw [Nat.zero_mul] at hlen
    have hnil : xs.drop ((page - 1) * perPage) = [] :=
      List.eq_nil_of_length_eq_zero (Nat.le_zero.mp hlen)
    simp [fetchPagesFrom, hnil]
  | succ fuel ih =>
    intro page hpage hlen
    by_cases hnil : xs.drop ((page - 1) * perPage) = []
    · simp [fetchPagesFrom, getPage, hnil]
    · by_cases hshort : (xs.drop ((page - 1) * perPage)).length < perPage
      · have htake : (xs.drop ((page - 1) * perPage)).take perPage = xs.drop ((page - 1) * perPage) :=
          List.take_of_length_le (le_of_lt hshort)
        simp only [fetchPagesFrom, getPage, htake]
        rw [if_neg (by simpa using hnil), if_pos hshort]
      · have hfull : perPage ≤ (xs.drop ((page - 1) * perPage)).length := Nat.le_of_not_lt hshort
        have hlen_take : ((xs.drop ((page - 1) * perPage)).take perPage).length = perPage := by
          rw [List.length_take]
          exact Nat.min_eq_left hfull
        have htake_ne : ¬ ((xs.drop ((page - 1) * perPage)).take perPage = []) := by
          intro h
          rw [h] at hlen_take
          simp at hlen_take
          omega
        have harith : (page + 1 - 1) * perPage = (page - 1) * perPage + perPage := by
          have h1 : page - 1 + 1 = page := Nat.succ_pred_eq_of_pos hpage
          calc (page + 1 - 1) * perPage = page * perPage := by simp
            _ = (page - 1 + 1) * perPage := by rw [h1]
            _ = (page - 1) * perPage + perPage := Nat.succ_mul _ _
        have hsm : (fuel + 1) * perPage = fuel * perPage + perPage := by ring
        have hlen' := hlen
        rw [List.length_drop] at hlen'
        have hreclen : (xs.drop ((page + 1 - 1) * perPage)).length ≤ fuel * perPage := by
          rw [harith, List.length_drop]
          omega
        have hrec := ih (page + 1) (by omega) hreclen
        rw [harith] at hrec
        simp only [fetchPagesFrom, getPage]
        rw [if_neg (by simpa using htake_ne), if_neg (by rw [hlen_take]; exact lt_irrefl _), hrec]
        exact List.drop_take_append_drop xs _ perPage

theorem getEnhancedCourseAssignments_complete (xs : List α) :
    getEnhancedCourseAssignments xs = xs := by
  have h := fetchPagesFrom_complete xs 100 (by omega) (xs.length + 1) 1 (by omega)
    (by simp [Nat.succ_mul]; omega)
  simpa [getEnhancedCourseAssignments] using h

theorem digitChar_isDigit (n : Nat) (h : n < 10) : (digitChar n).isDigit = true := by
  interval_cases n <;> decide

theorem digitVal_digitChar (n : Nat) (h : n < 10) : digitVal (digitChar n) = n := by
  interval_cases n <;> decide

theorem digitsVal_append_singleton (xs : List Char) (c : Char) :
    digitsVal (xs ++ [c]) = digitsVal xs * 10 + digitVal c := by
  simp [digitsVal, List.foldl_append]

theorem natToCharsAux_spec :
    ∀ fuel n, n ≤ fuel →
      (natToCharsAux fuel n).all Char.isDigit = true ∧
      digitsVal (natToCharsAux fuel n) = n ∧ natToCharsAux fuel n ≠ [] := by
  intro fuel
  induction fuel with
  | zero =>
    intro n hn
    have h0 : n = 0 := Nat.le_zero.mp hn
    subst h0
    refine ⟨by decide, by decide, by decide⟩
  | succ fuel ih =>
    intro n hn
    by_cases h10 : n < 10
    · simp only [natToCharsAux, if_pos h10]
      refine ⟨?_, ?_, by simp⟩
      · simpa using digitChar_isDigit n h10
      · simpa [digitsVal] using digitVal_digitChar n h10
    · have hdivlt : n / 10 < n := Nat.div_lt_self (by omega) (by omega)
      obtain ⟨ha, hv, hne⟩ := ih (n / 10) (by omega)
      have hmod : n % 10 < 10 := Nat.mod_lt _ (by omega)
      simp only [natToCharsAux, if_neg h10]
      refine ⟨?_, ?_, by simp⟩
      · rw [List.all_append, ha]
        simpa using digitChar_isDigit _ hmod
      · rw [digitsVal_append_singleton, hv, digitVal_digitChar _ hmod]
        omega

theorem pyStr_spec (n : Nat) :
    (pyStr n).data.all Char.isDigit = true ∧ digitsVal (pyStr n).data = n ∧
    (pyStr n).data ≠ [] :=
  natToCharsAux_spec n n le_rfl

theorem pyStr_inj {a b : Nat} (h : pyStr a = pyStr b) : a = b := by
  have hd := congrArg (fun s => digitsVal s.data) h
  simpa [(pyStr_spec a).2.1, (pyStr_spec b).2.1] using hd

theorem isDigit_ne_space {c : Char} (h : c.isDigit = true) : c ≠ ' ' := by
  intro he
  subst he
  exact absurd h (by decide)

theorem isDigit_ne_minus {c : Char} (h : c.isDigit = true) : c ≠ '-' := by
  intro he
  subst he
  exact absurd h (by decide)

theorem isDigit_ne_plus {c : Char} (h : c.isDigit = true) : c ≠ '+' := by
  intro he
  subst he
  exact absurd h (by decide)

theorem dropWhile_space_of_digits (l : List Char) (h : l.all Char.isDigit = true) :
    l.dropWhile (· = ' ') = l := by
  cases l with
  | nil => rfl
  | cons c cs =>
    simp only [List.all_cons, Bool.and_eq_true] at h
    have hc : c ≠ ' ' := isDigit_ne_space h.1
    simp [List.dropWhile_cons, hc]

theorem stripSpaces_digits (l : List Char) (h : l.all Char.isDigit = true) :
    stripSpaces l = l := by
  unfold stripSpaces
  rw [dropWhile_space_of_digits l h, dropWhile_space_of_digits l.reverse (by simpa using h),
    List.reverse_reverse]

theorem stripSpaces_cons_space (l : List Char) : stripSpaces (' ' :: l) = stripSpaces l := by
  simp [stripSpaces, List.dropWhile_cons]

theorem pyIntOfString_digits (l : List Char) (hne : l ≠ []) (h : l.all Char.isDigit = true) :
    pyIntOfString ⟨l⟩ = some (digitsVal l : Int) := by
  unfold pyIntOfString
  show (match stripSpaces l with | [] => _ | c :: r => _) = _
  rw [stripSpaces_digits l h]
  cases l with
  | nil => exact absurd rfl hne
  | cons c cs =>
    have h' := h
    simp only [List.all_cons, Bool.and_eq_true] at h'
    have hcd : c.isDigit = true := h'.1
    rw [show (match c :: cs with
        | [] => (Option.none : Option Int)
        | c :: r =>
          if c = '-' then
            (if r ≠ [] ∧ r.all Char.isDigit then some (-(digitsVal r : Int)) else Option.none)
          else if c = '+' then
            (if r ≠ [] ∧ r.all Char.isDigit then some (digitsVal r : Int) else Option.none)
          else if (c :: r).all Char.isDigit then some (digitsVal (c :: r) : Int)
          else Option.none) =
        (if c = '-' then
            (if cs ≠ [] ∧ cs.all Char.isDigit then some (-(digitsVal cs : Int)) else Option.none)
          else if c = '+' then
            (if cs ≠ [] ∧ cs.all Char.isDigit then some (digitsVal cs : Int) else Option.none)
          else if (c :: cs).all Char.isDigit then some (digitsVal (c :: cs) : Int)
          else Option.none) from rfl]
    rw [if_neg (isDigit_ne_minus hcd), if_neg (isDigit_ne_plus hcd), if_pos h]

theorem isPrefixB_append (l t : List Char) : isPrefixB l (l ++ t) = true := by
  induction l with
  | nil => rfl
  | cons c cs ih => simp [isPrefixB, ih]

theorem afterPat_of_prefix (pat t : List Char) (hne : pat ≠ []) :
    afterPat pat (pat ++ t) = some t := by
  cases pat with
  | nil => exact absurd rfl hne
  | cons c cs =>
    rw [List.cons_append]
    show (if isPrefixB (c :: cs) (c :: (cs ++ t)) then
        some ((c :: (cs ++ t)).drop (c :: cs).length)
      else afterPat (c :: cs) (cs ++ t)) = some t
    rw [if_pos (by rw [← List.cons_append]; exact isPrefixB_append _ _)]
    rw [← List.cons_append, List.drop_left]

theorem isInfixB_of_prefix (pat t : List Char) (hne : pat ≠ []) :
    isInfixB pat (pat ++ t) = true := by
  cases pat with
  | nil => exact absurd rfl hne
  | cons c cs =>
    rw [List.cons_append]
    show (isPrefixB (c :: cs) (c :: (cs ++ t)) || isInfixB (c :: cs) (cs ++ t)) = true
    rw [← List.cons_append, isPrefixB_append]
    rfl

theorem encodeContact_data (id : Nat) :
    (encodeContact id).data = "Canvas ID:".data ++ (' ' :: (pyStr id).data) := by
  unfold encodeContact
  rw [String.data_append]
  rw [show ("Canvas ID: ").data = "Canvas ID:".data ++ [' '] from by decide]
  rw [List.append_assoc]
  rfl

theorem decodeContact_encodeContact (id : Nat) :
    decodeContact (encodeContact id) = some (id : Int) := by
  obtain ⟨hdig, hval, hne⟩ := pyStr_spec id
  have hdata := encodeContact_data id
  have hCne : ("Canvas ID:".data : List Char) ≠ [] := by decide
  have hphne : encodeContact id ≠ "" := by
    intro h
    have h2 : (encodeContact id).data = [] := by rw [h]
    rw [hdata, List.append_eq_nil] at h2
    exact hCne h2.1
  have hcontains : strContains (encodeContact id) "Canvas ID:" = true := by
    unfold strContains
    rw [hdata]
    exact isInfixB_of_prefix _ _ hCne
  unfold decodeContact
  rw [if_pos ⟨hphne, hcontains⟩]
  rw [show afterPat ("Canvas ID:".data) (encodeContact id).data = some (' ' :: (pyStr id).data)
    from by rw [hdata]; exact afterPat_of_prefix _ _ hCne]
  show pyIntOfString ⟨stripSpaces (' ' :: (pyStr id).data)⟩ = some (id : Int)
  rw [stripSpaces_cons_space, stripSpaces_digits _ hdig]
  rw [show (⟨(pyStr id).data⟩ : String) = pyStr id from rfl]
  rw [show pyIntOfString (pyStr id) = some (digitsVal (pyStr id).data : Int) from by
    have := pyIntOfString_digits (pyStr id).data hne hdig
    simpa using this]
  rw [hval]

theorem courseStep_counts (ex : List String) (cr : CanvasCourse → CreateOutcome)
    (acc : CourseAcc) (c : CanvasCourse) :
    (courseStep ex cr acc c).created + (courseStep ex cr acc c).failed +
      (courseStep ex cr acc c).skipped = acc.created + acc.failed + acc.skipped + 1 := by
  unfold courseStep
  by_cases hmem : pyStr c.id ∈ ex
  · simp [hmem]
    omega
  · rw [if_neg hmem]
    cases cr c <;> simp <;> omega

theorem courseFoldl_counts (ex : List String) (cr : CanvasCourse → CreateOutcome) :
    ∀ (cs : List CanvasCourse) (acc : CourseAcc),
      (cs.foldl (courseStep ex cr) acc).created + (cs.foldl (courseStep ex cr) acc).failed +
        (cs.foldl (courseStep ex cr) acc).skipped
        = acc.created + acc.failed + acc.skipped + cs.length := by
  intro cs
  induction cs with
  | nil => intro acc; simp
  | cons c cs ih =>
    intro acc
    rw [List.foldl_cons, ih (courseStep ex cr acc c)]
    have := courseStep_counts ex cr acc c
    simp only [List.length_cons]
    omega

theorem courseFoldl_createdIds_append (ex : List String) (cr : CanvasCourse → CreateOutcome) :
    ∀ (cs : List CanvasCourse) (acc : CourseAcc),
      ∃ l, (cs.foldl (courseStep ex cr) acc).createdIds = acc.createdIds ++ l := by
  intro cs
  induction cs with
  | nil => intro acc; exact ⟨[], by simp⟩
  | cons c cs ih =>
    intro acc
    rw [List.foldl_cons]
    obtain ⟨l, hl⟩ := ih (courseStep ex cr acc c)
    have hstep : ∃ l0, (courseStep ex cr acc c).createdIds = acc.createdIds ++ l0 := by
      unfold courseStep
      by_cases hmem : pyStr c.id ∈ ex
      · exact ⟨[], by simp [hmem]⟩
      · rw [if_neg hmem]
        cases cr c
        · exact ⟨[c.id], by simp⟩
        · exact ⟨[], by simp⟩
        · exact ⟨[], by simp⟩
    obtain ⟨l0, hl0⟩ := hstep
    exact ⟨l0 ++ l, by rw [hl, hl0, List.append_assoc]⟩

theorem courseFoldl_covered (ex : List String) (cr : CanvasCourse → CreateOutcome)
    (hcr : ∀ c, ∃ s, cr c = .ok s) :
    ∀ (cs : List CanvasCourse) (acc : CourseAcc) (c : CanvasCourse), c ∈ cs →
      pyStr c.id ∈ ex ∨ c.id ∈ (cs.foldl (courseStep ex cr) acc).createdIds := by
  intro cs
  induction cs with
  | nil => intro acc c h; exact absurd h (List.not_mem_nil c)
  | cons x cs ih =>
    intro acc c hc
    rw [List.foldl_cons]
    rcases List.mem_cons.mp hc with rfl | htail
    · by_cases hmem : pyStr c.id ∈ ex
      · exact Or.inl hmem
      · refine Or.inr ?_
        obtain ⟨s, hs⟩ := hcr c
        have hstep : (courseStep ex cr acc c).createdIds = acc.createdIds ++ [c.id] := by
          simp [courseStep, hmem, hs]
        obtain ⟨l, hl⟩ := courseFoldl_createdIds_append ex cr cs (courseStep ex cr acc c)
        rw [hl, hstep]
        simp
    · exact ih (courseStep ex cr acc x) c htail

theorem courseFoldl_allskip (ex : List String) (cr : CanvasCourse → CreateOutcome) :
    ∀ (cs : List CanvasCourse) (acc : CourseAcc), (∀ c ∈ cs, pyStr c.id ∈ ex) →
      (cs.foldl (courseStep ex cr) acc).created = acc.created ∧
      (cs.foldl (courseStep ex cr) acc).failed = acc.failed ∧
      (cs.foldl (courseStep ex cr) acc).skipped = acc.skipped + cs.length := by
  intro cs
  induction cs with
  | nil => intro acc _; simp
  | cons c cs ih =>
    intro acc h
    rw [List.foldl_cons]
    have hmem : pyStr c.id ∈ ex := h c (List.mem_cons_self c cs)
    have hstep : courseStep ex cr acc c = { acc with skipped := acc.skipped + 1 } := by
      simp [courseStep, hmem]
    rw [hstep]
    obtain ⟨h1, h2, h3⟩ := ih _ (fun c' hc' => h c' (List.mem_cons_of_mem c hc'))
    refine ⟨by simpa using h1, by simpa using h2, ?_⟩
    rw [h3]
    simp [List.length_cons]
    omega

theorem sumAssignCounts_foldl (rs : List AssignCounts) :
    ∀ t : AssignCounts,
      rs.foldl
        (fun t r =>
          ⟨t.found + r.found, t.created + r.created, t.failed + r.failed, t.skipped + r.skipped,
            t.createdIds ++ r.createdIds, t.failedIds ++ r.failedIds⟩) t =
      ⟨t.found + (rs.map AssignCounts.found).sum,
        t.created + (rs.map AssignCounts.created).sum,
        t.failed + (rs.map AssignCounts.failed).sum,
        t.skipped + (rs.map AssignCounts.skipped).sum,
        t.createdIds ++ (rs.map AssignCounts.createdIds).flatten,
        t.failedIds ++ (rs.map AssignCounts.failedIds).flatten⟩ := by
  induction rs with
  | nil => intro t; cases t; simp
  | cons r rs ih =>
    intro t
    rw [List.foldl_cons, ih]
    simp [AssignCounts.mk.injEq, List.append_assoc]
    refine ⟨by omega, by omega, by omega, by omega⟩

theorem sumAssignCounts_spec (rs : List AssignCounts) :
    (sumAssignCounts rs).found = (rs.map AssignCounts.found).sum ∧
    (sumAssignCounts rs).created = (rs.map AssignCounts.created).sum ∧
    (sumAssignCounts rs).failed = (rs.map AssignCounts.failed).sum ∧
    (sumAssignCounts rs).skipped = (rs.map AssignCounts.skipped).sum ∧
    (sumAssignCounts rs).createdIds = (rs.map AssignCounts.createdIds).flatten := by
  unfold sumAssignCounts
  rw [sumAssignCounts_foldl]
  simp

theorem sca_conservation (cid : Nat) (fetch : Except Unit (List Nat)) (idx : List Nat)
    (proc : Nat → Bool) :
    (syncCourseAssignments cid fetch idx proc).found + (if isFetchError fetch then 1 else 0)
      = (syncCourseAssignments cid fetch idx proc).created +
        (syncCourseAssignments cid fetch idx proc).failed +
        (syncCourseAssignments cid fetch idx proc).skipped := by
  cases fetch with
  | error e => simp [syncCourseAssignments, isFetchError]
  | ok assignments =>
    simp only [syncCourseAssignments, isFetchError]
    by_cases h0 : assignments = []
    · simp [h0]
    · rw [if_neg h0]
      by_cases hnew : newAssignmentsOf assignments idx = []
      · rw [if_pos hnew]
        simp [hnew]
      · rw [if_neg hnew]
        have hsplit := length_filter_not_add (newAssignmentsOf assignments idx) proc
        have hle : (newAssignmentsOf assignments idx).length ≤ assignments.length :=
          List.length_filter_le _ _
        simp only [if_false]
        simp
        omega

theorem sca_processed (cid : Nat) (assignments : List Nat) (idx : List Nat) (proc : Nat → Bool)
    (a : Nat) (ha : a ∈ assignments) (hnotidx : a ∉ idx) :
    a ∈ (syncCourseAssignments cid (.ok assignments) idx proc).createdIds ∨
    a ∈ (syncCourseAssignments cid (.ok assignments) idx proc).failedIds := by
  have hmem : a ∈ newAssignmentsOf assignments idx := by
    simp [newAssignmentsOf, List.mem_filter, ha, hnotidx]
  have h0 : assignments ≠ [] := by
    intro h
    rw [h] at ha
    exact absurd ha (List.not_mem_nil a)
  have hnew : newAssignmentsOf assignments idx ≠ [] := by
    intro h
    rw [h] at hmem
    exact absurd hmem (List.not_mem_nil a)
  simp only [syncCourseAssignments]
  rw [if_neg h0, if_neg hnew]
  by_cases hp : proc a
  · exact Or.inl (by simp [List.mem_filter, hmem, hp])
  · exact Or.inr (by simp [List.mem_filter, hmem, hp])

theorem sca_allskip (cid : Nat) (assignments : List Nat) (idx : List Nat) (proc : Nat → Bool)
    (h : ∀ a ∈ assignments, a ∈ idx) (h0 : assignments ≠ []) :
    syncCourseAssignments cid (.ok assignments) idx proc =
      ⟨assignments.length, 0, 0, assignments.length, [], []⟩ := by
  have hnew : newAssignmentsOf assignments idx = [] := by
    simp only [newAssignmentsOf]
    rw [List.filter_eq_nil_iff]
    intro a ha
    simp [h a ha]
  simp [syncCourseAssignments, h0, hnew]

theorem sca_covered (cid : Nat) (assignments : List Nat) (idx : List Nat) (proc : Nat → Bool)
    (a : Nat) (ha : a ∈ assignments) (hproc : ∀ x, proc x = true) :
    a ∈ idx ∨ a ∈ (syncCourseAssignments cid (.ok assignments) idx proc).createdIds := by
  by_cases hidx : a ∈ idx
  · exact Or.inl hidx
  · refine Or.inr ?_
    rcases sca_processed cid assignments idx proc a ha hidx with h | h
    · exact h
    · have h0 : assignments ≠ [] := by
        intro hh
        rw [hh] at ha
        exact absurd ha (List.not_mem_nil a)
      have hmem : a ∈ newAssignmentsOf assignments idx := by
        simp [newAssignmentsOf, List.mem_filter, ha, hidx]
      have hnew : newAssignmentsOf assignments idx ≠ [] := by
        intro hh
        rw [hh] at hmem
        exact absurd hmem (List.not_mem_nil a)
      simp only [syncCourseAssignments] at h ⊢
      rw [if_neg h0, if_neg hnew] at h ⊢
      · simp [List.mem_filter, hmem, hproc a]

theorem extract_mkWeightPage_large (a : Nat) (h : 1000 < a) :
    extractAssignmentIdFromPage (mkWeightPage a) = some a := by
  simp only [mkWeightPage, extractAssignmentIdFromPage]
  rw [if_pos]
  · simp [encodeWeighting, Int.floor_natCast]
  · refine ⟨Or.inl (by decide), ?_, ?_⟩
    · simp [encodeWeighting]
      omega
    · simp only [encodeWeighting]
      exact_mod_cast h

theorem extract_mkWeightPage_small (a : Nat) (h : a ≤ 1000) :
    extractAssignmentIdFromPage (mkWeightPage a) = Option.none := by
  simp only [mkWeightPage, extractAssignmentIdFromPage]
  rw [if_neg]
  intro hcond
  have hlt : (1000 : ℚ) < (a : ℚ) := hcond.2.2
  have : (1000 : Nat) < a := by exact_mod_cast hlt
  omega

theorem assignIndexOf_append (p1 p2 : List (List (String × NotionProp))) :
    assignIndexOf (p1 ++ p2) = assignIndexOf p1 ++ assignIndexOf p2 := by
  simp [assignIndexOf, List.filterMap_append]

theorem assignIndexOf_mkPages (ids : List Nat) (h : ∀ a ∈ ids, 1000 < a) :
    assignIndexOf (ids.map mkWeightPage) = ids := by
  induction ids with
  | nil => rfl
  | cons a ids ih =>
    have ha : 1000 < a := h a (List.mem_cons_self a ids)
    simp only [List.map_cons, assignIndexOf, List.filterMap_cons,
      extract_mkWeightPage_large a ha]
    rw [show (ids.map mkWeightPage).filterMap extractAssignmentIdFromPage =
      assignIndexOf (ids.map mkWeightPage) from rfl]
    rw [ih (fun a' ha' => h a' (List.mem_cons_of_mem a ha'))]

theorem small_id_not_in_encoded_index (pages : List (List (String × NotionProp))) (a : Nat)
    (ha : a ≤ 1000) (h : ∀ p ∈ pages, ∃ b, p = mkWeightPage b) :
    a ∉ assignIndexOf pages := by
  intro hmem
  simp only [assignIndexOf, List.mem_filterMap] at hmem
  obtain ⟨p, hp, hex⟩ := hmem
  obtain ⟨b, rfl⟩ := h p hp
  by_cases hb : 1000 < b
  · rw [extract_mkWeightPage_large b hb] at hex
    have : b = a := by injection hex
    omega
  · rw [extract_mkWeightPage_small b (by omega)] at hex
    exact Option.noConfusion hex

theorem courseDupIndex_append (p1 p2 : List String) :
    courseDupIndex (p1 ++ p2) = courseDupIndex p1 ++ courseDupIndex p2 := by
  simp [courseDupIndex, List.filterMap_append]

theorem courseDupIndex_encodes (ids : List Nat) :
    courseDupIndex (ids.map encodeContact) = ids.map pyStr := by
  induction ids with
  | nil => rfl
  | cons a ids ih =>
    simp only [List.map_cons, courseDupIndex, List.filterMap_cons, decodeContact_encodeContact]
    rw [show ((ids.map encodeContact).filterMap decodeContact).map (fun n => pyStr n.toNat) =
      courseDupIndex (ids.map encodeContact) from rfl]
    rw [ih]
    simp

theorem determineSemester_parsed_T (s : String) (dt : PyDateTime)
    (hT : s.data.contains 'T' = true)
    (hp : fromisoformatModel ⟨replaceZ s.data⟩ = some dt) :
    determineSemesterFromDate s = seasonLabel dt.year dt.month := by
  have hne : s ≠ "" := by
    intro h
    subst h
    exact absurd hT (by decide)
  unfold determineSemesterFromDate
  rw [if_neg hne, if_pos hT, hp]

theorem determineSemester_parsed_date (s : String) (y m d : Nat)
    (hT : s.data.contains 'T' = false)
    (hp : parseYMDChars s.data = some (y, m, d)) :
    determineSemesterFromDate s = seasonLabel y m := by
  have hne : s ≠ "" := by
    intro h
    subst h
    exact Option.noConfusion hp
  unfold determineSemesterFromDate
  rw [if_neg (by simpa using hne), if_neg (by simpa using hT), hp]

theorem seasonLabel_spring (y m : Nat) (h1 : 1 ≤ m) (h2 : m ≤ 5) :
    seasonLabel y m = "Spring " ++ toString y := by
  unfold seasonLabel
  rw [if_pos (by omega)]

theorem seasonLabel_summer (y m : Nat) (h1 : 6 ≤ m) (h2 : m ≤ 7) :
    seasonLabel y m = "Summer " ++ toString y := by
  unfold seasonLabel
  rw [if_neg (by omega), if_pos (by omega)]

theorem seasonLabel_fall (y m : Nat) (h1 : 8 ≤ m) :
    seasonLabel y m = "Fall " ++ toString y := by
  unfold seasonLabel
  rw [if_neg (by omega), if_neg (by omega)]

theorem formatEst_Z_hour_ge5 (s : String) (dt : PyDateTime)
    (hT : s.data.contains 'T' = true) (hZ : endsWithZ s.data = true)
    (hp : fromisoformatModel ⟨replaceZ s.data⟩ = some dt) (hh : 5 ≤ dt.hour) :
    formatCanvasDueDateForNotionEst s =
      dateStr dt.year dt.month dt.day ++ "T" ++
        timeStr (dt.hour - 5) dt.minute dt.second ++ "-05:00" := by
  have hne : s ≠ "" := by
    intro h
    subst h
    exact absurd hT (by decide)
  unfold formatCanvasDueDateForNotionEst
  rw [if_neg hne, if_pos hT, if_pos hZ, hp]
  simp [minus5hours, hh]

theorem isInfixB_append_self (pre n : List Char) : isInfixB n (pre ++ n) = true := by
  induction pre with
  | nil =>
    rw [List.nil_append]
    cases n with
    | nil => rfl
    | cons c cs =>
      show (isPrefixB (c :: cs) (c :: cs) || isInfixB (c :: cs) cs) = true
      rw [show isPrefixB (c :: cs) (c :: cs) = true from by
        simpa using isPrefixB_append (c :: cs) []]
      rfl
  | cons p ps ih =>
    rw [List.cons_append]
    show (isPrefixB n (p :: (ps ++ n)) || isInfixB n (ps ++ n)) = true
    rw [ih]
    simp

theorem strContains_seasonLabel_year (y m : Nat) :
    strContains (seasonLabel y m) (toString y) = true := by
  unfold seasonLabel strContains
  split_ifs <;> (rw [String.data_append]; exact isInfixB_append_self _ _)

theorem syncAssignmentsBody_ok (env : AssignmentSyncEnv) (st : UserSettings)
    (hset : env.settings = some st)
    (h1 : ¬(st.canvasBaseUrl = "" ∨ st.canvasPat = ""))
    (h2 : ¬(st.notionToken = "" ∨ st.notionParentPageId = ""))
    (hne : env.syncedCourses ≠ []) :
    syncAssignments env =
      ⟨(sumAssignCounts (assignResultsOf env)).failed = 0,
        assignMessage (sumAssignCounts (assignResultsOf env)), env.syncedCourses.length,
        (sumAssignCounts (assignResultsOf env)).found,
        (sumAssignCounts (assignResultsOf env)).created,
        (sumAssignCounts (assignResultsOf env)).failed,
        (sumAssignCounts (assignResultsOf env)).skipped,
        (sumAssignCounts (assignResultsOf env)).createdIds,
        (sumAssignCounts (assignResultsOf env)).failedIds⟩ := by
  have hbody : syncAssignmentsBody env =
      .ok ⟨(sumAssignCounts (assignResultsOf env)).failed = 0,
        assignMessage (sumAssignCounts (assignResultsOf env)), env.syncedCourses.length,
        (sumAssignCounts (assignResultsOf env)).found,
        (sumAssignCounts (assignResultsOf env)).created,
        (sumAssignCounts (assignResultsOf env)).failed,
        (sumAssignCounts (assignResultsOf env)).skipped,
        (sumAssignCounts (assignResultsOf env)).createdIds,
        (sumAssignCounts (assignResultsOf env)).failedIds⟩ := by
    unfold syncAssignmentsBody
    rw [hset]
    simp only [syncAssignmentsBodyWith]
    rw [if_neg h1, if_neg h2, if_neg hne]
  unfold syncAssignments
  rw [hbody]

theorem syncCourses_ok (env : CourseSyncEnv) (st : UserSettings)
    (hset : env.settings = some st)
    (h1 : ¬(st.canvasBaseUrl = "" ∨ st.canvasPat = ""))
    (h2 : ¬(st.notionToken = "" ∨ st.notionParentPageId = ""))
    (hfb : env.firebaseOk = true) :
    syncCourses env = .ok (syncCurrentSemesterCourses env.fetch env.existingPages env.create) := by
  unfold syncCourses
  rw [hset]
  simp only [syncCoursesWithSettings]
  rw [if_neg h1, if_neg h2, if_neg (by simp [hfb])]

theorem syncAssignments_noCourses (env : AssignmentSyncEnv) (st : UserSettings)
    (hset : env.settings = some st)
    (h1 : ¬(st.canvasBaseUrl = "" ∨ st.canvasPat = ""))
    (h2 : ¬(st.notionToken = "" ∨ st.notionParentPageId = ""))
    (hne : env.syncedCourses = []) :
    syncAssignments env =
      ⟨false, "No synced courses found. Please sync courses first.", 0, 0, 0, 0, 0, [], []⟩ := by
  have hbody : syncAssignmentsBody env =
      .ok ⟨false, "No synced courses found. Please sync courses first.", 0, 0, 0, 0, 0, [], []⟩ := by
    unfold syncAssignmentsBody
    rw [hset]
    simp only [syncAssignmentsBodyWith]
    rw [if_neg h1, if_neg h2, if_pos hne]
  unfold syncAssignments
  rw [hbody]

theorem sum_map_add (l : List α) (f g : α → Nat) :
    (l.map (fun x => f x + g x)).sum = (l.map f).sum + (l.map g).sum := by
  induction l with
  | nil => simp
  | cons x xs ih => simp [ih]; omega

theorem sum_map_congr (l : List α) (f g : α → Nat) (h : ∀ x ∈ l, f x = g x) :
    (l.map f).sum = (l.map g).sum := by
  induction l with
  | nil => simp
  | cons x xs ih =>
    simp only [List.map_cons, List.sum_cons]
    rw [h x (List.mem_cons_self x xs), ih (fun x' hx' => h x' (List.mem_cons_of_mem x hx'))]

theorem length_filter_eq_sum_ite (l : List α) (p : α → Bool) :
    (l.filter p).length = (l.map (fun x => if p x then 1 else 0)).sum := by
  induction l with
  | nil => simp
  | cons x xs ih =>
    by_cases h : p x
    · simp [List.filter_cons, h, ih]
      omega
    · simp [List.filter_cons, h, ih]

theorem isFetchError_false_ok (f : Except Unit (List Nat)) (h : isFetchError f = false) :
    ∃ as, f = .ok as := by
  cases f with
  | error e => exact absurd h (by simp [isFetchError])
  | ok as => exact ⟨as, rfl⟩

theorem sca_createdIds_subset (cid : Nat) (as idx : List Nat) (proc : Nat → Bool) (a : Nat)
    (h : a ∈ (syncCourseAssignments cid (.ok as) idx proc).createdIds) : a ∈ as := by
  simp only [syncCourseAssignments] at h
  by_cases h0 : as = []
  · rw [if_pos h0] at h
    exact absurd h (List.not_mem_nil a)
  · rw [if_neg h0] at h
    by_cases hnew : newAssignmentsOf as idx = []
    · rw [if_pos hnew] at h
      exact absurd h (List.not_mem_nil a)
    · rw [if_neg hnew] at h
      have h1 : a ∈ newAssignmentsOf as idx := List.mem_of_mem_filter h
      exact List.mem_of_mem_filter h1

theorem courseFoldl_failedIds_append (ex : List String) (cr : CanvasCourse → CreateOutcome) :
    ∀ (cs : List CanvasCourse) (acc : CourseAcc),
      ∃ l, (cs.foldl (courseStep ex cr) acc).failedIds = acc.failedIds ++ l := by
  intro cs
  induction cs with
  | nil => intro acc; exact ⟨[], by simp⟩
  | cons c cs ih =>
    intro acc
    rw [List.foldl_cons]
    obtain ⟨l, hl⟩ := ih (courseStep ex cr acc c)
    have hstep : ∃ l0, (courseStep ex cr acc c).failedIds = acc.failedIds ++ l0 := by
      unfold courseStep
      by_cases hmem : pyStr c.id ∈ ex
      · exact ⟨[], by simp [hmem]⟩
      · rw [if_neg hmem]
        cases cr c
        · exact ⟨[], by simp⟩
        · exact ⟨[c.id], by simp⟩
        · exact ⟨[c.id], by simp⟩
    obtain ⟨l0, hl0⟩ := hstep
    exact ⟨l0 ++ l, by rw [hl, hl0, List.append_assoc]⟩

theorem courseFoldl_raised (ex : List String) (cr : CanvasCourse → CreateOutcome) :
    ∀ (cs : List CanvasCourse) (acc : CourseAcc) (c : CanvasCourse), c ∈ cs →
      cr c = .raised → pyStr c.id ∉ ex →
      c.id ∈ (cs.foldl (courseStep ex cr) acc).failedIds := by
  intro cs
  induction cs with
  | nil => intro acc c h; exact absurd h (List.not_mem_nil c)
  | cons x cs ih =>
    intro acc c hc hcr hmem
    rw [List.foldl_cons]
    rcases List.mem_cons.mp hc with rfl | htail
    · have hstep : (courseStep ex cr acc c).failedIds = acc.failedIds ++ [c.id] := by
        simp [courseStep, hmem, hcr]
      obtain ⟨l, hl⟩ := courseFoldl_failedIds_append ex cr cs (courseStep ex cr acc c)
      rw [hl, hstep]
      simp
    · exact ih (courseStep ex cr acc x) c htail hcr hmem

theorem decodeWeighting_large (id : Nat) (h : 1000 < id) :
    decodeWeighting (encodeWeighting id) = some id := by
  unfold decodeWeighting
  rw [if_pos]
  · simp [encodeWeighting, Int.floor_natCast]
  · constructor
    · simp [encodeWeighting]
      omega
    · simp only [encodeWeighting]
      exact_mod_cast h

theorem decodeWeighting_small (id : Nat) (h : id ≤ 1000) :
    decodeWeighting (encodeWeighting id) = Option.none := by
  unfold decodeWeighting
  rw [if_neg]
  intro hcond
  have hlt : (1000 : ℚ) < (id : ℚ) := hcond.2
  have : (1000 : Nat) < id := by exact_mod_cast hlt
  omega

theorem sccs_ok_cons (pages : List String) (create : CanvasCourse → CreateOutcome)
    (c : CanvasCourse) (cs : List CanvasCourse) :
    syncCurrentSemesterCourses (.ok (c :: cs)) pages create =
      ⟨((c :: cs).foldl (courseStep (courseDupIndex pages) create) ⟨0, 0, 0, [], []⟩).failed = 0,
        (c :: cs).length,
        ((c :: cs).foldl (courseStep (courseDupIndex pages) create) ⟨0, 0, 0, [], []⟩).created,
        ((c :: cs).foldl (courseStep (courseDupIndex pages) create) ⟨0, 0, 0, [], []⟩).failed,
        ((c :: cs).foldl (courseStep (courseDupIndex pages) create) ⟨0, 0, 0, [], []⟩).skipped,
        ((c :: cs).foldl (courseStep (courseDupIndex pages) create) ⟨0, 0, 0, [], []⟩).createdIds,
        ((c :: cs).foldl (courseStep (courseDupIndex pages) create) ⟨0, 0, 0, [], []⟩).failedIds⟩ :=
  rfl

/-! ## Claims -/

/-- C3: for a `due_at` carrying a time-of-day, the mapper's formatted due
date preserves the intended local (EST) calendar date: the concrete boundary
case `"2025-08-29T23:59:00Z"` formats with calendar date `2025-08-29` (not
`2025-08-28` or `2025-08-30`), and in general any UTC timestamp with hour
≥ 5 keeps its date component unchanged under the fixed −5-hour shift.  The
embedded function is pure arithmetic on the input string, with no reference
to a server-local timezone. -/
theorem c3_due_date_stability :
    mapperFormatDueDate (some "2025-08-29T23:59:00Z") = "2025-08-29T18:59:00-05:00" ∧
    isPrefixB "2025-08-29".data (mapperFormatDueDate (some "2025-08-29T23:59:00Z")).data = true ∧
    isPrefixB "2025-08-28".data (mapperFormatDueDate (some "2025-08-29T23:59:00Z")).data = false ∧
    isPrefixB "2025-08-30".data (mapperFormatDueDate (some "2025-08-29T23:59:00Z")).data = false ∧
    (∀ (s : String) (dt : PyDateTime), s.data.contains 'T' = true → endsWithZ s.data = true →
      fromisoformatModel ⟨replaceZ s.data⟩ = some dt → 5 ≤ dt.hour →
      formatCanvasDueDateForNotionEst s =
        dateStr dt.year dt.month dt.day ++ "T" ++
          timeStr (dt.hour - 5) dt.minute dt.second ++ "-05:00") := by
  refine ⟨by decide, by decide, by decide, by decide, ?_⟩
  intro s dt hT hZ hp hh
  exact formatEst_Z_hour_ge5 s dt hT hZ hp hh

/-- C3 witness: the general date-preservation conjunct applied at a concrete
mid-day UTC timestamp. -/
theorem c3_witness :
    formatCanvasDueDateForNotionEst "2025-12-31T06:00:00Z" =
      dateStr 2025 12 31 ++ "T" ++ timeStr 1 0 0 ++ "-05:00" :=
  c3_due_date_stability.2.2.2.2 "2025-12-31T06:00:00Z" ⟨2025, 12, 31, 6, 0, 0, some 0⟩
    (by decide) (by decide) (by decide) (by decide)

/-- C4 counterexample: the claim says `points_possible` is never negative and
that `mapAssignment` never raises on an unparsable value; the extractor
passes the negative upstream value `-5` through unchanged (yielding a
negative result), and the duplicated mapper in `course_mapper.py` calls a
bare `float("bad")`, which raises (`Option.none`). -/
theorem c4_counterexample :
    extractPointsPossible (PyVal.float (-5)) = -5 ∧ ((-5 : ℚ) < 0) ∧
    courseMapperPointsPossible (PyVal.str "bad") = Option.none := by
  refine ⟨by decide, by decide, by decide⟩

/-- C4 (amended): in the extractor-based mapper
(`AssignmentDataExtractor.extract_points_possible`), `points_possible` is
`0.0` when the upstream value is missing (`None`) or unparsable (e.g.
`"bad"`), without raising; any parseable value is passed through unchanged —
so a negative upstream value yields a negative result.  The duplicated
mapper in `course_mapper.py` raises on an unparsable string. -/
theorem c4_points_amended :
    extractPointsPossible PyVal.none = 0 ∧
    extractPointsPossible (PyVal.str "bad") = 0 ∧
    (∀ v : PyVal, pyFloat v = Option.none → extractPointsPossible v = 0) ∧
    (∀ q : ℚ, extractPointsPossible (PyVal.float q) = q) ∧
    (∀ s : String, pyFloatOfString s = Option.none →
      courseMapperPointsPossible (PyVal.str s) = Option.none) := by
  refine ⟨by decide, by decide, ?_, ?_, ?_⟩
  · intro v hv
    unfold extractPointsPossible
    by_cases h : v = PyVal.none
    · simp [h]
    · simp [h, hv]
  · intro q
    simp [extractPointsPossible, pyFloat]
  · intro s hs
    simp [courseMapperPointsPossible, pyFloat, hs]

/-- C4 witness: the unparsable-value conjunct applied at a concrete string. -/
theorem c4_witness : extractPointsPossible (PyVal.str "xyz") = 0 :=
  c4_points_amended.2.2.1 (PyVal.str "xyz") (by decide)

/-- C5 counterexample: the claim says every list fetch paginates to
completeness; `CanvasAPIClient.get_enrolled_courses` issues a single
`per_page=100` request, so with 101 upstream courses it silently returns
only the first 100. -/
theorem c5_counterexample :
    getEnrolledCourses (List.replicate 101 (0 : Nat)) ≠ List.replicate 101 0 ∧
    (getEnrolledCourses (List.replicate 101 (0 : Nat))).length = 100 := by
  refine ⟨by decide, by decide⟩

/-- C5 (amended): `get_enhanced_course_assignments` does paginate —
incrementing the page parameter until a short page — and returns the
complete upstream list; but the basic client's list fetch
(`get_enrolled_courses`) issues a single `per_page=100` request and returns
only the first 100 records, silently truncating longer lists. -/
theorem c5_pagination_amended (xs : List Nat) :
    getEnhancedCourseAssignments xs = xs ∧ getEnrolledCourses xs = xs.take 100 := by
  refine ⟨getEnhancedCourseAssignments_complete xs, ?_⟩
  simp [getEnrolledCourses, getPage]

/-- C7: the term resolver is total; empty/unparsable input yields the fixed
default `"Fall 2025"`; for parseable dates the claimed month buckets hold
with the year taken from the parsed date, including the four boundary
examples. -/
theorem c7_term_resolver :
    determineSemesterFromDate "2025-05-31T00:00:00Z" = "Spring 2025" ∧
    determineSemesterFromDate "2025-06-01T00:00:00Z" = "Summer 2025" ∧
    determineSemesterFromDate "2025-07-31T00:00:00Z" = "Summer 2025" ∧
    determineSemesterFromDate "2025-08-01T00:00:00Z" = "Fall 2025" ∧
    determineSemesterFromDate "" = "Fall 2025" ∧
    (∀ s : String, s.data.contains 'T' = true →
      fromisoformatModel ⟨replaceZ s.data⟩ = Option.none →
      determineSemesterFromDate s = "Fall 2025") ∧
    (∀ (s : String) (dt : PyDateTime), s.data.contains 'T' = true →
      fromisoformatModel ⟨replaceZ s.data⟩ = some dt →
      (1 ≤ dt.month ∧ dt.month ≤ 5 →
        determineSemesterFromDate s = "Spring " ++ toString dt.year) ∧
      (6 ≤ dt.month ∧ dt.month ≤ 7 →
        determineSemesterFromDate s = "Summer " ++ toString dt.year) ∧
      (8 ≤ dt.month ∧ dt.month ≤ 12 →
        determineSemesterFromDate s = "Fall " ++ toString dt.year)) := by
  refine ⟨by decide, by decide, by decide, by decide, by decide, ?_, ?_⟩
  · intro s hT hp
    have hne : s ≠ "" := by
      intro h
      subst h
      exact absurd hT (by decide)
    unfold determineSemesterFromDate
    rw [if_neg hne, if_pos hT, hp]
  · intro s dt hT hp
    have hlab := determineSemester_parsed_T s dt hT hp
    refine ⟨?_, ?_, ?_⟩
    · intro ⟨h1, h2⟩
      rw [hlab, seasonLabel_spring dt.year dt.month h1 h2]
    · intro ⟨h1, h2⟩
      rw [hlab, seasonLabel_summer dt.year dt.month h1 h2]
    · intro ⟨h1, _⟩
      rw [hlab, seasonLabel_fall dt.year dt.month h1]

/-- C7 witness: the general bucket conjunct applied at a concrete March
date. -/
theorem c7_witness :
    determineSemesterFromDate "2024-03-15T10:00:00Z" = "Spring " ++ toString 2024 :=
  (c7_term_resolver.2.2.2.2.2.2 "2024-03-15T10:00:00Z" ⟨2024, 3, 15, 10, 0, 0, some 0⟩
    (by decide) (by decide)).1 (by decide)

/-- C8: when the sections tier yields no instructors, resolution falls back
to the course-level enrollments filtered to teacher/assistant types, with
the role derived by stripping `"Enrollment"` from the enrollment type; a
course with empty sections and one assistant enrollment resolves to exactly
one instructor tagged `"Ta"`, and both tiers empty resolve to `[]` (no
error). -/
theorem c8_instructor_fallback :
    (∀ (secEnr : Nat → List Enrollment) (courseEnr : List Enrollment),
      resolveInstructors [] secEnr true courseEnr = getInstructorsFromEnrollments courseEnr) ∧
    (∀ (sections : List CourseSection) (secEnr : Nat → List Enrollment)
        (courseEnr : List Enrollment),
      getProfessorsFromSectionsTier sections secEnr = [] →
      resolveInstructors sections secEnr true courseEnr =
        getInstructorsFromEnrollments courseEnr) ∧
    (∀ (e : Enrollment) (u : CanvasUser), e.user = some u → e.etype = "TaEnrollment" →
      createInstructorFromEnrollment e = some ⟨u.id, u.name, "Ta"⟩) ∧
    (resolveInstructors [] (fun _ => []) true [⟨"TaEnrollment", some ⟨some 7, "Alice TA"⟩⟩] =
      [⟨some 7, "Alice TA", "Ta"⟩]) ∧
    (∀ (sections : List CourseSection) (secEnr : Nat → List Enrollment) (details : Bool),
      getProfessorsFromSectionsTier sections secEnr = [] →
      resolveInstructors sections secEnr details [] = []) := by
  refine ⟨?_, ?_, ?_, by decide, ?_⟩
  · intro secEnr courseEnr
    simp [resolveInstructors, getProfessorsFromSectionsTier, getProfessorsFallback]
  · intro sections secEnr courseEnr h
    simp [resolveInstructors, h, getProfessorsFallback]
  · intro e u hu het
    simp [createInstructorFromEnrollment, hu, het]
    decide
  · intro sections secEnr details h
    cases details <;>
      simp [resolveInstructors, h, getProfessorsFallback, getInstructorsFromEnrollments]

/-- C8 witness: the role-derivation conjunct applied at a concrete assistant
enrollment. -/
theorem c8_witness :
    createInstructorFromEnrollment ⟨"TaEnrollment", some ⟨some 3, "B"⟩⟩ =
      some ⟨some 3, "B", "Ta"⟩ :=
  c8_instructor_fallback.2.2.1 ⟨"TaEnrollment", some ⟨some 3, "B"⟩⟩ ⟨some 3, "B"⟩ rfl rfl

/-- C9: the embedded source id round-trips exactly above the magic
threshold: `decode (encode id) = id` for every Canvas id greater than 1000
(both at the raw value and through the page-property scan); an id at most
1000 never decodes, is never entered into an index built from run-created
pages, and such an assignment lands in the processed (created-or-failed) set
of every run instead of being skipped. -/
theorem c9_embedded_id_roundtrip :
    (∀ id : Nat, 1000 < id → decodeWeighting (encodeWeighting id) = some id ∧
      extractAssignmentIdFromPage (mkWeightPage id) = some id) ∧
    (∀ id : Nat, id ≤ 1000 → decodeWeighting (encodeWeighting id) = Option.none ∧
      extractAssignmentIdFromPage (mkWeightPage id) = Option.none) ∧
    (∀ (pages : List (List (String × NotionProp))) (id : Nat), id ≤ 1000 →
      (∀ p ∈ pages, ∃ b, p = mkWeightPage b) → id ∉ assignIndexOf pages) ∧
    (∀ (cid : Nat) (assignments idx : List Nat) (proc : Nat → Bool) (a : Nat),
      a ∈ assignments → a ∉ idx →
      a ∈ (syncCourseAssignments cid (.ok assignments) idx proc).createdIds ∨
      a ∈ (syncCourseAssignments cid (.ok assignments) idx proc).failedIds) := by
  refine ⟨?_, ?_, ?_, ?_⟩
  · intro id h
    exact ⟨decodeWeighting_large id h, extract_mkWeightPage_large id h⟩
  · intro id h
    exact ⟨decodeWeighting_small id h, extract_mkWeightPage_small id h⟩
  · intro pages id h hpages
    exact small_id_not_in_encoded_index pages id h hpages
  · intro cid assignments idx proc a ha hidx
    exact sca_processed cid assignments idx proc a ha hidx

/-- C9 witness: the above-threshold round trip at id 4321 and the
below-threshold rejection at id 500. -/
theorem c9_witness :
    decodeWeighting (encodeWeighting 4321) = some 4321 ∧
    decodeWeighting (encodeWeighting 500) = Option.none :=
  ⟨(c9_embedded_id_roundtrip.1 4321 (by decide)).1,
    (c9_embedded_id_roundtrip.2.1 500 (by decide)).1⟩

/-- C10: a course with a missing (or empty) `start_at` is always classified
as current; a course with a start date is included iff the derived term
label contains `str(CURRENT_YEAR)` as a substring — in particular a course
whose parsed start year equals the current year is always included (e.g. a
Spring course of the current year during the Fall of that year). -/
theorem c10_current_semester_filter :
    (∀ cy : Nat, isCurrentSemesterCourse cy Option.none = true) ∧
    (∀ cy : Nat, isCurrentSemesterCourse cy (some "") = true) ∧
    (∀ (cy : Nat) (s : String), s ≠ "" →
      isCurrentSemesterCourse cy (some s) =
        strContains (determineSemesterFromDate s) (toString cy)) ∧
    (∀ (cy : Nat) (s : String) (y m d : Nat), s.data.contains 'T' = false →
      parseYMDChars s.data = some (y, m, d) → y = cy →
      isCurrentSemesterCourse cy (some s) = true) ∧
    isCurrentSemesterCourse 2025 (some "2025-01-15") = true ∧
    isCurrentSemesterCourse 2025 (some "2024-09-01") = false := by
  refine ⟨fun cy => rfl, fun cy => rfl, ?_, ?_, by decide, by decide⟩
  · intro cy s h
    simp [isCurrentSemesterCourse, h]
  · intro cy s y m d hT hp hy
    have hne : s ≠ "" := by
      intro h
      subst h
      exact Option.noConfusion hp
    have hlab := determineSemester_parsed_date s y m d hT hp
    simp only [isCurrentSemesterCourse, if_neg hne, hlab]
    subst hy
    exact strContains_seasonLabel_year y m

/-- C10 witness: the year-match conjunct at a concrete current-year Spring
date. -/
theorem c10_witness : isCurrentSemesterCourse 2025 (some "2025-03-10") = true :=
  c10_current_semester_filter.2.2.2.1 2025 "2025-03-10" 2025 3 10 (by decide) (by decide) rfl

/-- C1 counterexample: with one synced course whose assignment-list fetch
raises, the summary records `found = 0` but `failed = 1` (the course-level
failed item), so `found ≠ created + failed + skipped`, contradicting the
claimed conservation invariant. -/
theorem c1_counterexample :
    (syncAssignments ⟨some ⟨"u", "p", "t", "g"⟩, [⟨101, "Course", "n1"⟩], [],
        fun _ => .error (), fun _ => true⟩).found = 0 ∧
    (syncAssignments ⟨some ⟨"u", "p", "t", "g"⟩, [⟨101, "Course", "n1"⟩], [],
        fun _ => .error (), fun _ => true⟩).created = 0 ∧
    (syncAssignments ⟨some ⟨"u", "p", "t", "g"⟩, [⟨101, "Course", "n1"⟩], [],
        fun _ => .error (), fun _ => true⟩).failed = 1 ∧
    (syncAssignments ⟨some ⟨"u", "p", "t", "g"⟩, [⟨101, "Course", "n1"⟩], [],
        fun _ => .error (), fun _ => true⟩).skipped = 0 ∧
    ¬((syncAssignments ⟨some ⟨"u", "p", "t", "g"⟩, [⟨101, "Course", "n1"⟩], [],
        fun _ => .error (), fun _ => true⟩).found =
      (syncAssignments ⟨some ⟨"u", "p", "t", "g"⟩, [⟨101, "Course", "n1"⟩], [],
        fun _ => .error (), fun _ => true⟩).created +
      (syncAssignments ⟨some ⟨"u", "p", "t", "g"⟩, [⟨101, "Course", "n1"⟩], [],
        fun _ => .error (), fun _ => true⟩).failed +
      (syncAssignments ⟨some ⟨"u", "p", "t", "g"⟩, [⟨101, "Course", "n1"⟩], [],
        fun _ => .error (), fun _ => true⟩).skipped) := by
  refine ⟨by decide, by decide, by decide, by decide, by decide⟩

/-- C1 (amended): conservation holds unconditionally for the course sync
(`found = created + failed + skipped` in every run); for the assignment
sync (with settings present) the general law is
`found + (number of courses whose assignment-list fetch raised)
 = created + failed + skipped` — a course whose fetch fails contributes one
failed item but nothing to `found`, so the claimed equality holds exactly
when no course-level fetch failure occurs. -/
theorem c1_conservation_amended :
    (∀ (fetch : Except Unit (List CanvasCourse)) (pages : List String)
        (create : CanvasCourse → CreateOutcome),
      (syncCurrentSemesterCourses fetch pages create).found =
        (syncCurrentSemesterCourses fetch pages create).created +
          (syncCurrentSemesterCourses fetch pages create).failed +
          (syncCurrentSemesterCourses fetch pages create).skipped) ∧
    (∀ (env : AssignmentSyncEnv) (st : UserSettings), env.settings = some st →
      ¬(st.canvasBaseUrl = "" ∨ st.canvasPat = "") →
      ¬(st.notionToken = "" ∨ st.notionParentPageId = "") →
      (syncAssignments env).found +
        (env.syncedCourses.filter
          (fun c => isFetchError (env.fetchAssignments c.canvasCourseId))).length =
        (syncAssignments env).created + (syncAssignments env).failed +
          (syncAssignments env).skipped) := by
  constructor
  · intro fetch pages create
    cases fetch with
    | error e => rfl
    | ok cs =>
      cases cs with
      | nil => rfl
      | cons c cs' =>
        rw [sccs_ok_cons]
        have hcount := courseFoldl_counts (courseDupIndex pages) create (c :: cs')
          ⟨0, 0, 0, [], []⟩
        simp only [List.foldl_cons] at hcount ⊢
        omega
  · intro env st hset h1 h2
    by_cases hsc : env.syncedCourses = []
    · rw [syncAssignments_noCourses env st hset h1 h2 hsc, hsc]
      simp
    · rw [syncAssignmentsBody_ok env st hset h1 h2 hsc]
      obtain ⟨hf, hc, hfl, hsk, _⟩ := sumAssignCounts_spec (assignResultsOf env)
      simp only []
      rw [hf, hc, hfl, hsk]
      unfold assignResultsOf
      rw [List.map_map, List.map_map, List.map_map, List.map_map,
        length_filter_eq_sum_ite, ← sum_map_add, ← sum_map_add, ← sum_map_add]
      refine sum_map_congr env.syncedCourses _ _ ?_
      intro c _
      exact sca_conservation c.canvasCourseId (env.fetchAssignments c.canvasCourseId)
        (assignIndexOf env.assignmentPages) env.proc

/-- C1 witness: the assignment-side conservation law applied at the
fetch-failure environment of the counterexample (found 0 + 1 failing course
= 0 created + 1 failed + 0 skipped). -/
theorem c1_witness :
    (syncAssignments ⟨some ⟨"u", "p", "t", "g"⟩, [⟨102, "Course", "n1"⟩], [],
        fun _ => .error (), fun _ => true⟩).found +
      (([⟨102, "Course", "n1"⟩] : List SyncedCourse).filter
        (fun c => isFetchError ((fun _ => .error ()) c.canvasCourseId))).length =
      (syncAssignments ⟨some ⟨"u", "p", "t", "g"⟩, [⟨102, "Course", "n1"⟩], [],
        fun _ => .error (), fun _ => true⟩).created +
      (syncAssignments ⟨some ⟨"u", "p", "t", "g"⟩, [⟨102, "Course", "n1"⟩], [],
        fun _ => .error (), fun _ => true⟩).failed +
      (syncAssignments ⟨some ⟨"u", "p", "t", "g"⟩, [⟨102, "Course", "n1"⟩], [],
        fun _ => .error (), fun _ => true⟩).skipped :=
  c1_conservation_amended.2
    ⟨some ⟨"u", "p", "t", "g"⟩, [⟨102, "Course", "n1"⟩], [], fun _ => .error (), fun _ => true⟩
    ⟨"u", "p", "t", "g"⟩ rfl (by decide) (by decide)

/-- C6 counterexample: the claim says a missing-credentials configuration
error surfaces as a raised hard failure for both coordinators; the
assignment sync instead catches it at its top-level handler and returns a
structured zero-count failure response to the caller. -/
theorem c6_counterexample :
    syncAssignments ⟨some ⟨"", "", "t", "g"⟩, [⟨1, "c", "n"⟩], [], fun _ => .ok [],
        fun _ => true⟩ =
      ⟨false,
        "Assignment sync failed: Canvas credentials not configured. Please set Canvas base URL and PAT.",
        0, 0, 0, 0, 0, [], []⟩ := by
  decide

/-- C6 (amended): the course sync raises `ValidationError` for missing
Canvas or Notion credentials before any fetch (the result does not depend on
the fetch), and with credentials present (and the post-success audit write
succeeding) it always returns a structured summary; a course whose creation
raises becomes a `failed_courses` entry rather than an exception.  The
assignment sync never raises: its missing-credentials `ValidationError` is
caught by the top-level handler and converted into the structured failure
response. -/
theorem c6_error_propagation_amended :
    (∀ (env : CourseSyncEnv) (st : UserSettings), env.settings = some st →
      (st.canvasBaseUrl = "" ∨ st.canvasPat = "") →
      syncCourses env = .error (.validationError
        "Canvas credentials not configured. Please set Canvas base URL and PAT.")) ∧
    (∀ (env : CourseSyncEnv) (st : UserSettings), env.settings = some st →
      ¬(st.canvasBaseUrl = "" ∨ st.canvasPat = "") →
      (st.notionToken = "" ∨ st.notionParentPageId = "") →
      syncCourses env = .error (.validationError
        "Notion credentials not configured. Please set Notion token and parent page ID.")) ∧
    (∀ (env : CourseSyncEnv) (st : UserSettings), env.settings = some st →
      ¬(st.canvasBaseUrl = "" ∨ st.canvasPat = "") →
      ¬(st.notionToken = "" ∨ st.notionParentPageId = "") → env.firebaseOk = true →
      syncCourses env = .ok (syncCurrentSemesterCourses env.fetch env.existingPages env.create)) ∧
    (∀ (pages : List String) (create : CanvasCourse → CreateOutcome)
        (courses : List CanvasCourse) (c : CanvasCourse), c ∈ courses →
      create c = .raised → pyStr c.id ∉ courseDupIndex pages →
      c.id ∈ (syncCurrentSemesterCourses (.ok courses) pages create).failedIds) ∧
    (∀ (env : AssignmentSyncEnv) (st : UserSettings), env.settings = some st →
      (st.canvasBaseUrl = "" ∨ st.canvasPat = "") →
      syncAssignments env = assignFailureResponse (.validationError
        "Canvas credentials not configured. Please set Canvas base URL and PAT.")) := by
  refine ⟨?_, ?_, ?_, ?_, ?_⟩
  · intro env st hset h
    unfold syncCourses
    rw [hset]
    simp only [syncCoursesWithSettings]
    rw [if_pos h]
  · intro env st hset h1 h2
    unfold syncCourses
    rw [hset]
    simp only [syncCoursesWithSettings]
    rw [if_neg h1, if_pos h2]
  · intro env st hset h1 h2 hfb
    exact syncCourses_ok env st hset h1 h2 hfb
  · intro pages create courses c hc hcr hmem
    cases courses with
    | nil => exact absurd hc (List.not_mem_nil c)
    | cons x cs =>
      rw [sccs_ok_cons]
      exact courseFoldl_raised (courseDupIndex pages) create (x :: cs) ⟨0, 0, 0, [], []⟩
        c hc hcr hmem
  · intro env st hset h
    have hbody : syncAssignmentsBody env = .error (.validationError
        "Canvas credentials not configured. Please set Canvas base URL and PAT.") := by
      unfold syncAssignmentsBody
      rw [hset]
      simp only [syncAssignmentsBodyWith]
      rw [if_pos h]
    unfold syncAssignments
    rw [hbody]

/-- C6 witness: the assignment-side conjunct applied at a concrete
environment with an empty Canvas token. -/
theorem c6_witness :
    syncAssignments ⟨some ⟨"url", "", "t", "g"⟩, [⟨1, "c", "n"⟩], [], fun _ => .ok [],
        fun _ => true⟩ =
      assignFailureResponse (.validationError
        "Canvas credentials not configured. Please set Canvas base URL and PAT.") :=
  c6_error_propagation_amended.2.2.2.2
    ⟨some ⟨"url", "", "t", "g"⟩, [⟨1, "c", "n"⟩], [], fun _ => .ok [], fun _ => true⟩
    ⟨"url", "", "t", "g"⟩ rfl (by decide)

/-- C2 counterexample: an assignment with Canvas id 500 (≤ 1000, below the
duplicate-index decode threshold) is created by the first run but never
appears in the second run's duplicate index, so the second run re-creates
it: `created = 1 ≠ 0` and `skipped = 0 ≠ found = 1`, contradicting the
claimed idempotence of the assignment sync. -/
theorem c2_counterexample :
    (syncAssignments ⟨some ⟨"u", "p", "t", "g"⟩, [⟨101, "C", "n"⟩],
        assignmentPagesAfterRun []
          (syncAssignments ⟨some ⟨"u", "p", "t", "g"⟩, [⟨101, "C", "n"⟩], [],
            fun _ => .ok [500], fun _ => true⟩),
        fun _ => .ok [500], fun _ => true⟩).created = 1 ∧
    (syncAssignments ⟨some ⟨"u", "p", "t", "g"⟩, [⟨101, "C", "n"⟩],
        assignmentPagesAfterRun []
          (syncAssignments ⟨some ⟨"u", "p", "t", "g"⟩, [⟨101, "C", "n"⟩], [],
            fun _ => .ok [500], fun _ => true⟩),
        fun _ => .ok [500], fun _ => true⟩).skipped = 0 ∧
    (syncAssignments ⟨some ⟨"u", "p", "t", "g"⟩, [⟨101, "C", "n"⟩],
        assignmentPagesAfterRun []
          (syncAssignments ⟨some ⟨"u", "p", "t", "g"⟩, [⟨101, "C", "n"⟩], [],
            fun _ => .ok [500], fun _ => true⟩),
        fun _ => .ok [500], fun _ => true⟩).found = 1 := by
  refine ⟨by decide, by decide, by decide⟩

/-- C2 (amended): the course sync is idempotent as claimed — with a fixed
upstream and all creations succeeding, the second run has `created = 0` and
`skipped = found`.  The assignment sync is idempotent under the same
conditions *provided every Canvas assignment id exceeds 1000* (the
duplicate-index decode threshold); an id at most 1000 is re-created on every
run (see the counterexample). -/
theorem c2_idempotence_amended :
    (∀ (pages0 : List String) (courses : List CanvasCourse)
        (create : CanvasCourse → CreateOutcome),
      (∀ c, ∃ sid, create c = .ok sid) →
      (syncCurrentSemesterCourses (.ok courses)
          (coursePagesAfterRun pages0 (syncCurrentSemesterCourses (.ok courses) pages0 create))
          create).created = 0 ∧
      (syncCurrentSemesterCourses (.ok courses)
          (coursePagesAfterRun pages0 (syncCurrentSemesterCourses (.ok courses) pages0 create))
          create).skipped =
        (syncCurrentSemesterCourses (.ok courses)
          (coursePagesAfterRun pages0 (syncCurrentSemesterCourses (.ok courses) pages0 create))
          create).found) ∧
    (∀ (env : AssignmentSyncEnv) (st : UserSettings), env.settings = some st →
      ¬(st.canvasBaseUrl = "" ∨ st.canvasPat = "") →
      ¬(st.notionToken = "" ∨ st.notionParentPageId = "") →
      (∀ cid, isFetchError (env.fetchAssignments cid) = false) →
      (∀ cid as, env.fetchAssignments cid = .ok as → ∀ a ∈ as, 1000 < a) →
      (∀ x, env.proc x = true) →
      (syncAssignments { env with
          assignmentPages := assignmentPagesAfterRun env.assignmentPages (syncAssignments env) }).created = 0 ∧
      (syncAssignments { env with
          assignmentPages := assignmentPagesAfterRun env.assignmentPages (syncAssignments env) }).skipped =
        (syncAssignments { env with
          assignmentPages := assignmentPagesAfterRun env.assignmentPages (syncAssignments env) }).found) := by
  constructor
  · intro pages0 courses create hcr
    cases courses with
    | nil => exact ⟨rfl, rfl⟩
    | cons c cs =>
      have hpages1 : coursePagesAfterRun pages0
          (syncCurrentSemesterCourses (.ok (c :: cs)) pages0 create) =
          pages0 ++ ((c :: cs).foldl (courseStep (courseDupIndex pages0) create)
            ⟨0, 0, 0, [], []⟩).createdIds.map encodeContact := by
        rw [sccs_ok_cons]
        rfl
      have hcov : ∀ x ∈ (c :: cs),
          pyStr x.id ∈ courseDupIndex (coursePagesAfterRun pages0
            (syncCurrentSemesterCourses (.ok (c :: cs)) pages0 create)) := by
        intro x hx
        rw [hpages1, courseDupIndex_append, courseDupIndex_encodes]
        rcases courseFoldl_covered (courseDupIndex pages0) create hcr (c :: cs)
          ⟨0, 0, 0, [], []⟩ x hx with h | h
        · exact List.mem_append_left _ h
        · exact List.mem_append_right _ (List.mem_map.mpr ⟨x.id, h, rfl⟩)
      rw [sccs_ok_cons]
      obtain ⟨h1, h2, h3⟩ := courseFoldl_allskip
        (courseDupIndex (coursePagesAfterRun pages0
          (syncCurrentSemesterCourses (.ok (c :: cs)) pages0 create))) create (c :: cs)
        ⟨0, 0, 0, [], []⟩ hcov
      exact ⟨by simpa using h1, by simpa using h3⟩
  · intro env st hset h1 h2 hferr hids hproc
    by_cases hsc : env.syncedCourses = []
    · have hr1 := syncAssignments_noCourses env st hset h1 h2 hsc
      have hr2 := syncAssignments_noCourses
        { env with
          assignmentPages := assignmentPagesAfterRun env.assignmentPages (syncAssignments env) }
        st hset h1 h2 hsc
      rw [hr2]
      exact ⟨rfl, rfl⟩
    · have hr1 := syncAssignmentsBody_ok env st hset h1 h2 hsc
      have hlarge : ∀ a ∈ (sumAssignCounts (assignResultsOf env)).createdIds, 1000 < a := by
        intro a ha
        rw [(sumAssignCounts_spec (assignResultsOf env)).2.2.2.2, List.mem_flatten] at ha
        obtain ⟨l, hl, hal⟩ := ha
        rw [List.mem_map] at hl
        obtain ⟨r, hr, rfl⟩ := hl
        unfold assignResultsOf at hr
        rw [List.mem_map] at hr
        obtain ⟨course, hcourse, rfl⟩ := hr
        obtain ⟨as, has⟩ := isFetchError_false_ok _ (hferr course.canvasCourseId)
        rw [has] at hal
        exact hids course.canvasCourseId as has a (sca_createdIds_subset _ _ _ _ _ hal)
      have hidx2 : assignIndexOf (assignmentPagesAfterRun env.assignmentPages
          (syncAssignments env)) =
          assignIndexOf env.assignmentPages ++
            (sumAssignCounts (assignResultsOf env)).createdIds := by
        unfold assignmentPagesAfterRun
        rw [assignIndexOf_append]
        congr 1
        rw [hr1]
        exact assignIndexOf_mkPages _ hlarge
      have hpercourse : ∀ course ∈ env.syncedCourses,
          (syncCourseAssignments course.canvasCourseId
            (env.fetchAssignments course.canvasCourseId)
            (assignIndexOf env.assignmentPages ++
              (sumAssignCounts (assignResultsOf env)).createdIds) env.proc).created = 0 ∧
          (syncCourseAssignments course.canvasCourseId
            (env.fetchAssignments course.canvasCourseId)
            (assignIndexOf env.assignmentPages ++
              (sumAssignCounts (assignResultsOf env)).createdIds) env.proc).skipped =
          (syncCourseAssignments course.canvasCourseId
            (env.fetchAssignments course.canvasCourseId)
            (assignIndexOf env.assignmentPages ++
              (sumAssignCounts (assignResultsOf env)).createdIds) env.proc).found := by
        intro course hcourse
        obtain ⟨as, has⟩ := isFetchError_false_ok _ (hferr course.canvasCourseId)
        rw [has]
        by_cases has0 : as = []
        · subst has0
          simp [syncCourseAssignments]
        · have hcover : ∀ a ∈ as,
              a ∈ assignIndexOf env.assignmentPages ++
                (sumAssignCounts (assignResultsOf env)).createdIds := by
            intro a hain
            rcases sca_covered course.canvasCourseId as (assignIndexOf env.assignmentPages)
              env.proc a hain hproc with h | h
            · exact List.mem_append_left _ h
            · refine List.mem_append_right _ ?_
              rw [(sumAssignCounts_spec (assignResultsOf env)).2.2.2.2, List.mem_flatten]
              refine ⟨(syncCourseAssignments course.canvasCourseId
                (env.fetchAssignments course.canvasCourseId)
                (assignIndexOf env.assignmentPages) env.proc).createdIds, ?_, ?_⟩
              · rw [List.mem_map]
                refine ⟨syncCourseAssignments course.canvasCourseId
                  (env.fetchAssignments course.canvasCourseId)
                  (assignIndexOf env.assignmentPages) env.proc, ?_, rfl⟩
                unfold assignResultsOf
                rw [List.mem_map]
                exact ⟨course, hcourse, rfl⟩
              · rw [has]
                exact h
          rw [sca_allskip course.canvasCourseId as _ env.proc hcover has0]
          exact ⟨rfl, rfl⟩
      have hr2 := syncAssignmentsBody_ok
        { env with
          assignmentPages := assignmentPagesAfterRun env.assignmentPages (syncAssignments env) }
        st hset h1 h2 hsc
      rw [hr2]
      have hres2 : assignResultsOf { env with
          assignmentPages := assignmentPagesAfterRun env.assignmentPages (syncAssignments env) } =
          env.syncedCourses.map (fun course => syncCourseAssignments course.canvasCourseId
            (env.fetchAssignments course.canvasCourseId)
            (assignIndexOf env.assignmentPages ++
              (sumAssignCounts (assignResultsOf env)).createdIds) env.proc) := by
        rw [show assignResultsOf { env with
            assignmentPages := assignmentPagesAfterRun env.assignmentPages (syncAssignments env) } =
          env.syncedCourses.map (fun course => syncCourseAssignments course.canvasCourseId
            (env.fetchAssignments course.canvasCourseId)
            (assignIndexOf (assignmentPagesAfterRun env.assignmentPages (syncAssignments env)))
            env.proc) from rfl]
        rw [hidx2]
      obtain ⟨hf2, hc2, _, hs2, _⟩ := sumAssignCounts_spec (assignResultsOf
        { env with
          assignmentPages := assignmentPagesAfterRun env.assignmentPages (syncAssignments env) })
      constructor
      · show (sumAssignCounts (assignResultsOf _)).created = 0
        rw [hc2, hres2, List.map_map]
        simp only [Function.comp_def]
        rw [sum_map_congr env.syncedCourses _ (fun _ => 0)
          (fun course hcourse => (hpercourse course hcourse).1)]
        simp
      · show (sumAssignCounts (assignResultsOf _)).skipped =
          (sumAssignCounts (assignResultsOf _)).found
        rw [hs2, hf2, hres2, List.map_map, List.map_map]
        simp only [Function.comp_def]
        exact sum_map_congr env.syncedCourses _ _
          (fun course hcourse => (hpercourse course hcourse).2)

/-- C2 witness: the assignment-side idempotence conjunct applied at a
concrete environment with one course and one assignment of id 5000: the
second run creates nothing and skips its one found assignment. -/
theorem c2_witness :
    (syncAssignments { (⟨some ⟨"u", "p", "t", "g"⟩, [⟨101, "C", "n"⟩], [],
        fun _ => .ok [5000], fun _ => true⟩ : AssignmentSyncEnv) with
        assignmentPages := assignmentPagesAfterRun []
          (syncAssignments ⟨some ⟨"u", "p", "t", "g"⟩, [⟨101, "C", "n"⟩], [],
            fun _ => .ok [5000], fun _ => true⟩) }).created = 0 ∧
    (syncAssignments { (⟨some ⟨"u", "p", "t", "g"⟩, [⟨101, "C", "n"⟩], [],
        fun _ => .ok [5000], fun _ => true⟩ : AssignmentSyncEnv) with
        assignmentPages := assignmentPagesAfterRun []
          (syncAssignments ⟨some ⟨"u", "p", "t", "g"⟩, [⟨101, "C", "n"⟩], [],
            fun _ => .ok [5000], fun _ => true⟩) }).skipped =
    (syncAssignments { (⟨some ⟨"u", "p", "t", "g"⟩, [⟨101, "C", "n"⟩], [],
        fun _ => .ok [5000], fun _ => true⟩ : AssignmentSyncEnv) with
        assignmentPages := assignmentPagesAfterRun []
          (syncAssignments ⟨some ⟨"u", "p", "t", "g"⟩, [⟨101, "C", "n"⟩], [],
            fun _ => .ok [5000], fun _ => true⟩) }).found :=
  c2_idempotence_amended.2
    ⟨some ⟨"u", "p", "t", "g"⟩, [⟨101, "C", "n"⟩], [], fun _ => .ok [5000], fun _ => true⟩
    ⟨"u", "p", "t", "g"⟩ rfl (by decide) (by decide) (fun _ => rfl)
    (by
      intro cid as h a ha
      injection h with h'
      subst h'
      simp at ha
      omega)
    (fun _ => rfl)

end Turing
